import Mathlib

/-!
ECP5 slave-SPI staging driver (`main.c`): shallow embedding.

The driver keeps, per device, two growable byte buffers (`algo_mem`, `data_mem`) with
their logical sizes and session mutexes, and serialises programming runs with the
global mutex `programming_lock`.

Conventions of the embedding

* C integers are `Int`/`Nat` values; every conversion between C integer types is an
  explicit `toSigned w` / `toUnsigned w` (two's complement, `w` bits).
* `size_t`, `ssize_t` and pointers are `Arch.bits` wide (32 on an ILP32 kernel, 64 on an
  LP64 kernel); `int` and `uint32_t` are 32 bits, `loff_t` is 64 bits on both.
* A buffer pointer is `Option (List UInt8)`: `none` is `NULL`, `some m` is an allocation of
  `m.length` bytes.
* A handler returns `none` when it makes a kernel-side memory access outside the
  allocation it indexes (behaviour the C language leaves undefined); otherwise it returns
  its C return value together with the state it leaves.
* The environment (allocator, user-space copies, programming engine) is passed in
  explicitly.
-/

namespace ECP5

/-! ## Machine integers -/

/-- Data model of the kernel the driver is built for. -/
inductive Arch where
  | ilp32
  | lp64
  deriving DecidableEq, Repr

/-- Width in bits of `size_t`, `ssize_t` and `unsigned long`. -/
def Arch.bits : Arch → Nat
  | .ilp32 => 32
  | .lp64 => 64

/-- Conversion to an unsigned C integer type of `w` bits. -/
def toUnsigned (w : Nat) (x : Int) : Int := x % 2 ^ w

/-- Conversion to a signed C integer type of `w` bits (two's complement wrap-around). -/
def toSigned (w : Nat) (x : Int) : Int := (x + 2 ^ (w - 1)) % 2 ^ w - 2 ^ (w - 1)

/-- Value of the C expression `*offp + len` (`loff_t` plus `size_t`) in the type the usual
arithmetic conversions give it: `long long` on ILP32, `unsigned long long` on LP64. -/
def off_plus_len (a : Arch) (offp : Int) (len : Nat) : Int :=
  match a with
  | .ilp32 => toSigned 64 (offp + len)
  | .lp64 => toUnsigned 64 (offp + len)

/-- The C comparison `*offp + len > size` where `size` is an `int`: the `int` is converted
to the type of the sum (sign-preserving on ILP32, modulo 2^64 on LP64). -/
def sum_gt_size (a : Arch) (offp : Int) (len : Nat) (size : Int) : Bool :=
  match a with
  | .ilp32 => decide (off_plus_len a offp len > size)
  | .lp64 => decide (off_plus_len a offp len > toUnsigned 64 size)

/-! ## Error numbers (`asm-generic/errno-base.h`) -/

/-- Value of `ENOMEM`. -/
def ENOMEM : Int := 12
/-- Value of `EFAULT`. -/
def EFAULT : Int := 14
/-- Value of `EBUSY`. -/
def EBUSY : Int := 16
/-- Value of `EINVAL`. -/
def EINVAL : Int := 22

/-! ## State -/

/-- The per-device record `struct ecp5` (the two `miscdevice` registration records are
left out; `spi` is the identity of the SPI device). -/
structure ecp5 where
  spi : Nat
  programming_result : Int
  algo_size : Int
  algo_mem : Option (List UInt8)
  algo_lock : Bool
  data_size : Int
  data_mem : Option (List UInt8)
  data_lock : Bool
  deriving DecidableEq

/-- The file-scope variables of `main.c`: the mutex `programming_lock` (`true` = held)
and the diagnostic pointer `current_programming_ecp5` (`none` = `NULL`). -/
structure Globals where
  programming_lock : Bool
  current_programming_ecp5 : Option Nat
  deriving DecidableEq

/-- The record `devm_kzalloc` hands to `ecp5_probe`, after the probe's assignments. -/
def ecp5_probe (spi : Nat) : ecp5 :=
  { spi := spi, programming_result := 0,
    algo_size := 0, algo_mem := none, algo_lock := false,
    data_size := 0, data_mem := none, data_lock := false }

/-- State of the file-scope variables at module load. -/
def Globals.init : Globals :=
  { programming_lock := false, current_programming_ecp5 := none }

/-! ## Kernel services used by the handlers -/

/-- Behaviour of `krealloc(p, new_size, GFP_KERNEL)`: a request for zero bytes returns
the non-`NULL` `ZERO_SIZE_PTR`; otherwise the allocator either fails (`NULL`) or returns
`new_size` bytes that start with the old content, the rest being whatever the storage
held (`junk`). -/
def krealloc (p : Option (List UInt8)) (new_size : Nat) (ok : Bool) (junk : Nat → UInt8) :
    Option (List UInt8) :=
  if new_size = 0 then some []
  else if ok then some ((List.range new_size).map fun i => (p.getD []).getD i (junk i))
  else none

/-- Behaviour of `copy_to_user(ubuf, mem + off, n)`: `uncopied` bytes (at most `n`) cannot
be stored to user space, so the first `n - uncopied` bytes at `mem + off` are read and
delivered; the result is the number of bytes not copied and the bytes delivered.  `none`
when bytes are read outside the allocation. -/
def copy_to_user (mem : Option (List UInt8)) (off : Int) (n : Nat) (uncopied : Nat) :
    Option (Nat × List UInt8) :=
  let k := n - min uncopied n
  if k = 0 then some (min uncopied n, [])
  else if 0 ≤ off ∧ off + k ≤ ((mem.getD []).length : Int) then
    some (min uncopied n, ((mem.getD []).drop off.toNat).take k)
  else none

/-- Behaviour of `copy_from_user(mem + off, ubuf, len)` where `ubuf` holds the `len` user
bytes: `uncopied` bytes (at most `len`) cannot be fetched and are replaced by zeros; the
result is the new content of the allocation and the number of bytes not copied.  `none`
when `len > 0` bytes are stored outside the allocation. -/
def copy_from_user (mem : List UInt8) (off : Int) (ubuf : List UInt8) (uncopied : Nat) :
    Option (List UInt8 × Nat) :=
  if ubuf.length = 0 then some (mem, 0)
  else if 0 ≤ off ∧ off + ubuf.length ≤ (mem.length : Int) then
    some (mem.take off.toNat
            ++ (ubuf.take (ubuf.length - min uncopied ubuf.length)
                  ++ List.replicate (min uncopied ubuf.length) 0)
            ++ mem.drop (off.toNat + ubuf.length),
          min uncopied ubuf.length)
  else none

/-- What the environment decides during one `write` call. -/
structure WriteEnv where
  alloc_ok : Bool
  junk : Nat → UInt8
  uncopied : Nat

/-- The programming engine of `lattice/SSPIEm.h`, consumed through its two entry points. -/
structure Engine where
  SSPIEm_preset : Option (List UInt8) → Int → Option (List UInt8) → Int → Int
  SSPIEm : Nat → Int

/-- One call made into the programming engine. -/
inductive EngineCall where
  | preset (algo_mem : Option (List UInt8)) (algo_size : Int)
      (data_mem : Option (List UInt8)) (data_size : Int)
  | program (mask : Nat)
  deriving DecidableEq

/-! ## File operations -/

/-- Handler `ecp5_sspi_algo_open`. -/
def ecp5_sspi_algo_open (e : ecp5) : Int × ecp5 :=
  if e.algo_lock then (-EBUSY, e) else (0, { e with algo_lock := true })

/-- Handler `ecp5_sspi_algo_release`. -/
def ecp5_sspi_algo_release (e : ecp5) : Int × ecp5 :=
  (0, { e with algo_lock := false })

/-- Handler `ecp5_sspi_data_open`. -/
def ecp5_sspi_data_open (e : ecp5) : Int × ecp5 :=
  if e.data_lock then (-EBUSY, e) else (0, { e with data_lock := true })

/-- Handler `ecp5_sspi_data_release`. -/
def ecp5_sspi_data_release (e : ecp5) : Int × ecp5 :=
  (0, { e with data_lock := false })

/-- What a `read` handler leaves behind: its return value, `*offp`, and the bytes stored
in the caller's buffer.  The device record is not assigned to by `read`. -/
structure ReadResult where
  ret : Int
  offp : Int
  ubuf : List UInt8
  deriving DecidableEq

/-- Handler `ecp5_sspi_algo_read`. -/
def ecp5_sspi_algo_read (a : Arch) (e : ecp5) (len : Nat) (offp : Int) (uncopied : Nat) :
    Option ReadResult :=
  if offp > e.algo_size then some ⟨0, offp, []⟩
  else
    let len1 : Nat :=
      if sum_gt_size a offp len e.algo_size then
        (toUnsigned a.bits (toSigned 64 (e.algo_size - offp))).toNat
      else len
    match copy_to_user e.algo_mem offp len1 uncopied with
    | none => none
    | some (bad, out) =>
      if bad ≠ 0 then some ⟨-EFAULT, offp, out⟩
      else some ⟨toSigned a.bits len1, toSigned 64 (offp + len1), out⟩

/-- Handler `ecp5_sspi_data_read`. -/
def ecp5_sspi_data_read (a : Arch) (e : ecp5) (len : Nat) (offp : Int) (uncopied : Nat) :
    Option ReadResult :=
  if offp > e.data_size then some ⟨0, offp, []⟩
  else
    let len1 : Nat :=
      if sum_gt_size a offp len e.data_size then
        (toUnsigned a.bits (toSigned 64 (e.data_size - offp))).toNat
      else len
    match copy_to_user e.data_mem offp len1 uncopied with
    | none => none
    | some (bad, out) =>
      if bad ≠ 0 then some ⟨-EFAULT, offp, out⟩
      else some ⟨toSigned a.bits len1, toSigned 64 (offp + len1), out⟩

/-- What a `write` handler leaves behind: its return value, the device record, the
file-scope variables and `*offp`. -/
structure WriteResult where
  ret : Int
  dev : ecp5
  globals : Globals
  offp : Int
  deriving DecidableEq

/-- Handler `ecp5_sspi_algo_write`; `ubuf` is the user buffer, `len` its length. -/
def ecp5_sspi_algo_write (a : Arch) (e : ecp5) (g : Globals) (ubuf : List UInt8)
    (offp : Int) (env : WriteEnv) : Option WriteResult :=
  let len : Nat := ubuf.length
  -- ssize_t size = max_t(ssize_t, len + *offp, ecp5_info->algo_size);
  let size : Int := max (toSigned a.bits (off_plus_len a offp len)) e.algo_size
  -- ecp5_info->algo_size = len + *offp;
  let e1 : ecp5 := { e with algo_size := toSigned 32 (off_plus_len a offp len) }
  let e2 : ecp5 :=
    { e1 with algo_mem :=
        krealloc e1.algo_mem (toUnsigned a.bits size).toNat env.alloc_ok env.junk }
  match e2.algo_mem with
  | none => some ⟨-EFAULT, e2, g, offp⟩
  | some mem =>
    if g.programming_lock then some ⟨-EBUSY, e2, g, offp⟩
    else
      match copy_from_user mem offp ubuf env.uncopied with
      | none => none
      | some (mem1, bad) =>
        let e3 : ecp5 := { e2 with algo_mem := some mem1 }
        if bad ≠ 0 then some ⟨-EFAULT, e3, { g with programming_lock := true }, offp⟩
        else
          some ⟨toSigned a.bits len, { e3 with algo_size := toSigned 32 size },
                { g with programming_lock := false }, toSigned 64 (offp + len)⟩

/-- Handler `ecp5_sspi_data_write`; `ubuf` is the user buffer, `len` its length. -/
def ecp5_sspi_data_write (a : Arch) (e : ecp5) (g : Globals) (ubuf : List UInt8)
    (offp : Int) (env : WriteEnv) : Option WriteResult :=
  let len : Nat := ubuf.length
  -- ssize_t size = max_t(ssize_t, len + *offp, ecp5_info->data_size);
  let size : Int := max (toSigned a.bits (off_plus_len a offp len)) e.data_size
  let e2 : ecp5 :=
    { e with data_mem :=
        krealloc e.data_mem (toUnsigned a.bits size).toNat env.alloc_ok env.junk }
  match e2.data_mem with
  | none => some ⟨-EFAULT, e2, g, offp⟩
  | some mem =>
    if g.programming_lock then some ⟨-EBUSY, e2, g, offp⟩
    else
      match copy_from_user mem offp ubuf env.uncopied with
      | none => none
      | some (mem1, bad) =>
        let e3 : ecp5 := { e2 with data_mem := some mem1 }
        if bad ≠ 0 then some ⟨-EFAULT, e3, { g with programming_lock := true }, offp⟩
        else
          some ⟨toSigned a.bits len, { e3 with data_size := toSigned 32 size },
                { g with programming_lock := false }, toSigned 64 (offp + len)⟩

/-- Value of `SEEK_SET`. -/
def SEEK_SET : Int := 0
/-- Value of `SEEK_CUR`. -/
def SEEK_CUR : Int := 1
/-- Value of `SEEK_END`. -/
def SEEK_END : Int := 2

/-- Common body of the two `lseek` handlers once `uint32_t size` has been loaded:
returns the C return value and the new `fp->f_pos`. -/
def lseek_body (size32 : Int) (f_pos : Int) (off : Int) (whence : Int) : Int × Int :=
  let newpos : Option Int :=
    if whence = SEEK_SET then some off
    else if whence = SEEK_CUR then some (toSigned 64 (f_pos + off))
    else if whence = SEEK_END then some (toSigned 64 (size32 + off))
    else none
  match newpos with
  | none => (-EINVAL, f_pos)
  | some p =>
    if p < 0 then (-EINVAL, f_pos)
    else
      let p1 := if p > size32 then size32 else p
      (p1, p1)

/-- Handler `ecp5_sspi_algo_lseek`. -/
def ecp5_sspi_algo_lseek (e : ecp5) (f_pos : Int) (off : Int) (whence : Int) : Int × Int :=
  lseek_body (toUnsigned 32 e.algo_size) f_pos off whence

/-- Handler `ecp5_sspi_data_lseek`. -/
def ecp5_sspi_data_lseek (e : ecp5) (f_pos : Int) (off : Int) (whence : Int) : Int × Int :=
  lseek_body (toUnsigned 32 e.data_size) f_pos off whence

/-! ## Control attributes -/

/-- What `program_store` leaves behind: its return value, the device record, the
file-scope variables and the calls it made into the engine, in order. -/
structure StoreResult where
  ret : Int
  dev : ecp5
  globals : Globals
  calls : List EngineCall
  deriving DecidableEq

/-- Attribute handler `program_store`; the written text `buf` is not looked at. -/
def program_store (a : Arch) (e : ecp5) (g : Globals) (count : Nat) (eng : Engine) :
    StoreResult :=
  if g.programming_lock then ⟨toSigned a.bits count, e, g, []⟩
  else
    let g1 : Globals := { programming_lock := true, current_programming_ecp5 := some e.spi }
    let e1 : ecp5 :=
      { e with programming_result :=
          eng.SSPIEm_preset e.algo_mem e.algo_size e.data_mem e.data_size }
    let e2 : ecp5 := { e1 with programming_result := eng.SSPIEm 0xFFFFFFFF }
    ⟨toSigned a.bits count, e2, { g1 with programming_lock := false },
      [EngineCall.preset e.algo_mem e.algo_size e.data_mem e.data_size,
       EngineCall.program 0xFFFFFFFF]⟩

/-- Attribute handler `algo_size_show`: the number it prints. -/
def algo_size_show (e : ecp5) : Int := e.algo_size

/-- Attribute handler `data_size_show`: the number it prints. -/
def data_size_show (e : ecp5) : Int := e.data_size

/-- Attribute handler `program_show`: the number it prints. -/
def program_show (e : ecp5) : Int := e.programming_result

/-! ## Well-formedness predicates used in the statements -/

/-- The value fits the C type `int`. -/
def IsInt (x : Int) : Prop := -2147483648 ≤ x ∧ x ≤ 2147483647

instance (x : Int) : Decidable (IsInt x) := by unfold IsInt; infer_instance

/-- The environment in which allocation and the user copy of a write succeed. -/
def WriteEnv.succeeds (env : WriteEnv) : Prop := env.alloc_ok = true ∧ env.uncopied = 0

/-- The bytes `m[off .. off + n)`. -/
def slice (m : List UInt8) (off n : Nat) : List UInt8 := (m.drop off).take n

/-- The sum `*offp + len` and its comparison with an `int` size are exact.  On ILP32 they
are carried out in signed 64 bits, which is exact for every 32-bit length and every offset
the comparison `*offp > size` lets through; on LP64 they are carried out in unsigned
64 bits, which is exact when the offset is not negative and the sum stays below 2^64. -/
def no_wrap (a : Arch) (offp : Int) (len : Nat) : Prop :=
  match a with
  | .ilp32 => True
  | .lp64 => 0 ≤ offp ∧ offp + len < 2 ^ 64

instance (a : Arch) (offp : Int) (len : Nat) : Decidable (no_wrap a offp len) := by
  unfold no_wrap; cases a <;> infer_instance

/-! ## Concrete states used in the examples -/

/-- An environment in which the allocator and the user copy succeed. -/
def env_ok : WriteEnv := { alloc_ok := true, junk := fun _ => 0xAA, uncopied := 0 }

/-- An environment in which the allocator fails. -/
def env_nomem : WriteEnv := { alloc_ok := false, junk := fun _ => 0xAA, uncopied := 0 }

/-- A device whose two buffers hold the ten bytes 0..9. -/
def dev10 : ecp5 :=
  { ecp5_probe 0 with
    algo_size := 10, algo_mem := some [0, 1, 2, 3, 4, 5, 6, 7, 8, 9],
    data_size := 10, data_mem := some [0, 1, 2, 3, 4, 5, 6, 7, 8, 9] }

/-- The file-scope variables while another caller holds `programming_lock`. -/
def globals_busy : Globals := { programming_lock := true, current_programming_ecp5 := some 1 }

/-- An engine that reports `sa` from `SSPIEm_preset` and `sb` from `SSPIEm`. -/
def engine_const (sa sb : Int) : Engine :=
  { SSPIEm_preset := fun _ _ _ _ => sa, SSPIEm := fun _ => sb }

/-- An environment in which the allocator succeeds and the user copy leaves one byte
behind (the user buffer faults). -/
def env_fault : WriteEnv := { alloc_ok := true, junk := fun _ => 0xAA, uncopied := 1 }

/-! ## Seek as the specification words it, and the state predicates of the later claims -/

/-- Position a seek asks for, in the words of the specification: `offset` from the start,
`cursor + offset` from the current position, `size + offset` from the end, all computed
exactly; `none` when the origin is not one of the three. -/
def seek_target (cursor size off whence : Int) : Option Int :=
  if whence = SEEK_SET then some off
  else if whence = SEEK_CUR then some (cursor + off)
  else if whence = SEEK_END then some (size + off)
  else none

/-- Result of a seek (return value, new cursor) in the words of the specification:
`InvalidArgument` with the cursor kept when the origin is unrecognised or the position
is negative, otherwise the position clamped to `size`. -/
def seek_spec (cursor size off whence : Int) : Int × Int :=
  match seek_target cursor size off whence with
  | none => (-EINVAL, cursor)
  | some p => if p < 0 then (-EINVAL, cursor) else (min p size, min p size)

/-- The value fits the C type `loff_t` (signed 64 bits). -/
def fits_loff (x : Int) : Prop := -9223372036854775808 ≤ x ∧ x ≤ 9223372036854775807

instance (x : Int) : Decidable (fits_loff x) := by unfold fits_loff; infer_instance

/-- The cursor invariant of the data model: `0 ≤ cursor ≤ size`. -/
def cursor_inv (cursor size : Int) : Prop := 0 ≤ cursor ∧ cursor ≤ size

instance (cursor size : Int) : Decidable (cursor_inv cursor size) := by
  unfold cursor_inv; infer_instance

/-- The staged content of a device: both logical sizes and both storages. -/
def staged (e : ecp5) : Int × Option (List UInt8) × Int × Option (List UInt8) :=
  (e.algo_size, e.algo_mem, e.data_size, e.data_mem)

/-- The device record with the roles of the two buffers exchanged. -/
def ecp5.swap (e : ecp5) : ecp5 :=
  { e with
    algo_size := e.data_size, algo_mem := e.data_mem, algo_lock := e.data_lock,
    data_size := e.algo_size, data_mem := e.algo_mem, data_lock := e.algo_lock }

/-- The storage of a buffer is an object of fewer than 2^bits bytes: `krealloc` takes the
size of what it returns as a `size_t`. -/
def storage_fits (a : Arch) (mem : Option (List UInt8)) : Prop :=
  ((mem.getD []).length : Int) < 2 ^ a.bits

instance (a : Arch) (mem : Option (List UInt8)) : Decidable (storage_fits a mem) := by
  unfold storage_fits; infer_instance

/-- A device whose data buffer has size 10 and no storage: what a write that failed in
`krealloc` leaves behind. -/
def dev_null_storage : ecp5 :=
  { ecp5_probe 0 with data_size := 10, data_mem := none }

/-! ## Session locks (C6) -/

/-- C6: for both buffers, `open` on a free session lock returns 0 and takes the lock;
`open` on a held lock returns `-EBUSY` and changes nothing; after `release` the lock is
free, the next `open` succeeds and one more `open` without a `release` in between gets
`-EBUSY`. -/
theorem open_release_session_lock (e : ecp5) :
    ecp5_sspi_algo_open { e with algo_lock := false } = (0, { e with algo_lock := true })
    ∧ ecp5_sspi_algo_open { e with algo_lock := true }
        = (-EBUSY, { e with algo_lock := true })
    ∧ (ecp5_sspi_algo_release e).1 = 0
    ∧ (ecp5_sspi_algo_release e).2 = { e with algo_lock := false }
    ∧ (ecp5_sspi_algo_open (ecp5_sspi_algo_release e).2).1 = 0
    ∧ ecp5_sspi_algo_open (ecp5_sspi_algo_open (ecp5_sspi_algo_release e).2).2
        = (-EBUSY, (ecp5_sspi_algo_open (ecp5_sspi_algo_release e).2).2)
    ∧ ecp5_sspi_data_open { e with data_lock := false } = (0, { e with data_lock := true })
    ∧ ecp5_sspi_data_open { e with data_lock := true }
        = (-EBUSY, { e with data_lock := true })
    ∧ (ecp5_sspi_data_release e).1 = 0
    ∧ (ecp5_sspi_data_release e).2 = { e with data_lock := false }
    ∧ (ecp5_sspi_data_open (ecp5_sspi_data_release e).2).1 = 0
    ∧ ecp5_sspi_data_open (ecp5_sspi_data_open (ecp5_sspi_data_release e).2).2
        = (-EBUSY, (ecp5_sspi_data_open (ecp5_sspi_data_release e).2).2) := by
  simp [ecp5_sspi_algo_open, ecp5_sspi_algo_release, ecp5_sspi_data_open,
    ecp5_sspi_data_release]

/-! ## The programming trigger (C7, C8) -/

/-- A count below 2^(bits-1) is returned unchanged as an `ssize_t`. -/
theorem toSigned_count (a : Arch) (count : Nat) (h : (count : Int) < 2 ^ (a.bits - 1)) :
    toSigned a.bits count = count := by
  cases a <;> simp only [Arch.bits, toSigned] at * <;> norm_num at * <;> omega

/-- C7: with `programming_lock` free, `program_store` calls `SSPIEm_preset` with the algo
buffer, `algo_size`, the data buffer and `data_size`, then `SSPIEm(0xFFFFFFFF)`; it leaves
`programming_result` equal to what `SSPIEm` returned, whatever `SSPIEm_preset` returned and
whether or not the status is 2; nothing else in the device record changes, the lock is
free on return and the return value is `count` (as an `ssize_t`, so `count` itself for
every count below 2^(bits-1)). -/
theorem program_store_runs_engine (a : Arch) (e : ecp5) (g : Globals) (count : Nat)
    (eng : Engine) (hfree : g.programming_lock = false) :
    (program_store a e g count eng).calls
        = [EngineCall.preset e.algo_mem e.algo_size e.data_mem e.data_size,
           EngineCall.program 0xFFFFFFFF]
    ∧ (program_store a e g count eng).dev
        = { e with programming_result := eng.SSPIEm 0xFFFFFFFF }
    ∧ (program_store a e g count eng).globals.programming_lock = false
    ∧ (program_store a e g count eng).ret = toSigned a.bits count
    ∧ ((count : Int) < 2 ^ (a.bits - 1) → (program_store a e g count eng).ret = count) := by
  refine ⟨?_, ?_, ?_, ?_, fun hcount => ?_⟩ <;>
    simp [program_store, hfree]
  exact toSigned_count a count hcount

/-- Witness of C7: a device with both buffers staged, preset status -5 and program
status 7 (not the success value 2). -/
theorem program_store_runs_engine_witness :
    (program_store .ilp32 dev10 Globals.init 1 (engine_const (-5) 7)).calls
        = [EngineCall.preset dev10.algo_mem dev10.algo_size dev10.data_mem dev10.data_size,
           EngineCall.program 0xFFFFFFFF]
    ∧ (program_store .ilp32 dev10 Globals.init 1 (engine_const (-5) 7)).dev
        = { dev10 with programming_result := 7 }
    ∧ (program_store .ilp32 dev10 Globals.init 1
        (engine_const (-5) 7)).globals.programming_lock = false
    ∧ (program_store .ilp32 dev10 Globals.init 1 (engine_const (-5) 7)).ret = (1 : Nat) :=
  have h := program_store_runs_engine .ilp32 dev10 Globals.init 1 (engine_const (-5) 7) rfl
  ⟨h.1, h.2.1, h.2.2.1, h.2.2.2.2 (by decide)⟩

/-- C8: with `programming_lock` already held, `program_store` returns `count` (as an
`ssize_t`), makes no engine call and leaves the device record (so `programming_result`)
and the file-scope variables (so the held lock) as they were.  Hence of two triggers of
which the second arrives while the lock taken for the first is held, only the first
stores the status returned by `SSPIEm`. -/
theorem program_store_busy (a : Arch) (e e' : ecp5) (g g' : Globals) (count : Nat)
    (eng : Engine) (hheld : g.programming_lock = true)
    (hfree : g'.programming_lock = false) :
    (program_store a e g count eng).ret = toSigned a.bits count
    ∧ ((count : Int) < 2 ^ (a.bits - 1) → (program_store a e g count eng).ret = count)
    ∧ (program_store a e g count eng).calls = []
    ∧ (program_store a e g count eng).dev = e
    ∧ (program_store a e g count eng).globals = g
    ∧ (program_store a e' g' count eng).dev.programming_result = eng.SSPIEm 0xFFFFFFFF
    ∧ (program_store a e g count eng).dev.programming_result = e.programming_result := by
  refine ⟨?_, fun hcount => ?_, ?_, ?_, ?_, ?_, ?_⟩ <;>
    simp [program_store, hheld, hfree]
  exact toSigned_count a count hcount

/-- Witness of C8: one trigger on a device with stored result 0 while the lock is held,
one on a second device with the lock free. -/
theorem program_store_busy_witness :
    (program_store .lp64 dev10 globals_busy 1 (engine_const 0 2)).ret = (1 : Nat)
    ∧ (program_store .lp64 dev10 globals_busy 1 (engine_const 0 2)).calls = []
    ∧ (program_store .lp64 dev10 globals_busy 1 (engine_const 0 2)).dev = dev10
    ∧ (program_store .lp64 dev10 globals_busy 1 (engine_const 0 2)).globals = globals_busy
    ∧ (program_store .lp64 (ecp5_probe 1) Globals.init 1
        (engine_const 0 2)).dev.programming_result = 2
    ∧ (program_store .lp64 dev10 globals_busy 1
        (engine_const 0 2)).dev.programming_result = 0 :=
  have h := program_store_busy .lp64 dev10 (ecp5_probe 1) globals_busy Globals.init 1
    (engine_const 0 2) rfl rfl
  ⟨h.2.1 (by decide), h.2.2.1, h.2.2.2.1, h.2.2.2.2.1, h.2.2.2.2.2.1, h.2.2.2.2.2.2⟩

/-! ## Failure paths of `write` (C3, C4, C5) -/

/-- On a failed lock attempt `ecp5_sspi_data_write` leaves `data_size` and `*offp` as they
were: it has no counterpart of the early store to `algo_size`. -/
theorem data_write_busy_keeps_size (a : Arch) (e : ecp5) (g : Globals) (ubuf : List UInt8)
    (offp : Int) (env : WriteEnv) (r : WriteResult)
    (h : ecp5_sspi_data_write a e g ubuf offp env = some r) (hret : r.ret = -EBUSY)
    (hlen : (ubuf.length : Int) < 2 ^ (a.bits - 1)) :
    r.dev.data_size = e.data_size ∧ r.offp = offp ∧ r.dev.algo_size = e.algo_size := by
  have hpos : toSigned a.bits ubuf.length = ubuf.length := toSigned_count a _ hlen
  unfold ecp5_sspi_data_write at h
  simp only [] at h
  split at h
  · simp only [Option.some.injEq] at h; subst h
    simp [EFAULT, EBUSY] at hret
  · split at h
    · simp only [Option.some.injEq] at h; subst h; simp
    · split at h
      · exact absurd h (by simp)
      · split at h
        · simp only [Option.some.injEq] at h; subst h
          simp [EFAULT, EBUSY] at hret
        · simp only [Option.some.injEq] at h; subst h
          simp only [hpos, EBUSY] at hret
          omega

/-- C3, at the failing input: the algo buffer holds 10 bytes, `programming_lock` is held,
and 3 bytes are written at offset 0.  `ecp5_sspi_algo_write` returns `-EBUSY` and leaves
`algo_size` at 3, below the 10 it was before the call (on both data models); the same
call on the data buffer leaves `data_size` at 10. -/
theorem algo_write_busy_shrinks_size :
    ecp5_sspi_algo_write .ilp32 dev10 globals_busy [1, 2, 3] 0 env_ok
        = some ⟨-EBUSY, { dev10 with algo_size := 3 }, globals_busy, 0⟩
    ∧ ecp5_sspi_algo_write .lp64 dev10 globals_busy [1, 2, 3] 0 env_ok
        = some ⟨-EBUSY, { dev10 with algo_size := 3 }, globals_busy, 0⟩
    ∧ (3 : Int) < dev10.algo_size
    ∧ ecp5_sspi_data_write .lp64 dev10 globals_busy [1, 2, 3] 0 env_ok
        = some ⟨-EBUSY, dev10, globals_busy, 0⟩ := by
  decide

/-- C4, at the failing input: the algo buffer is empty, `programming_lock` is held, and
4 bytes are written at offset 0.  `ecp5_sspi_algo_write` returns `-EBUSY` with `*offp`
unchanged, but `algo_size` is 4 after the call although it was 0 before and no byte was
copied (the storage holds what the allocator left there). -/
theorem algo_write_busy_commits_size :
    ecp5_sspi_algo_write .lp64 (ecp5_probe 0) globals_busy [0xDE, 0xAD, 0xBE, 0xEF] 0 env_ok
        = some ⟨-EBUSY,
            { ecp5_probe 0 with algo_size := 4, algo_mem := some [0xAA, 0xAA, 0xAA, 0xAA] },
            globals_busy, 0⟩
    ∧ (ecp5_probe 0).algo_size = 0
    ∧ algo_size_show { ecp5_probe 0 with
        algo_size := 4, algo_mem := some [0xAA, 0xAA, 0xAA, 0xAA] } = 4 := by
  decide

/-- C5, at the failing input: one byte is written at offset 0 of an empty buffer and
`krealloc` fails.  Both write handlers return `-EFAULT` (-14), the value they also return
when `copy_from_user` fails, and not `-ENOMEM` (-12). -/
theorem write_alloc_failure_returns_efault :
    (ecp5_sspi_algo_write .lp64 (ecp5_probe 0) Globals.init [1] 0 env_nomem).map
        (fun r => r.ret) = some (-EFAULT)
    ∧ (ecp5_sspi_data_write .lp64 (ecp5_probe 0) Globals.init [1] 0 env_nomem).map
        (fun r => r.ret) = some (-EFAULT)
    ∧ (ecp5_sspi_data_write .lp64 (ecp5_probe 0) Globals.init [1] 0
        { alloc_ok := true, junk := fun _ => 0, uncopied := 1 }).map
        (fun r => r.ret) = some (-EFAULT)
    ∧ -EFAULT ≠ -ENOMEM := by
  decide

/-! ## Arithmetic of a write and a read inside the `int` range -/

/-- Inside the `int` range none of the conversions made by a write changes a value. -/
theorem write_ints (a : Arch) (offp : Int) (len : Nat) (old : Int) (h0 : 0 ≤ offp)
    (h1 : offp + len ≤ 2147483647) (hold : IsInt old) :
    toSigned 32 (off_plus_len a offp len) = offp + len
    ∧ max (toSigned a.bits (off_plus_len a offp len)) old = max (offp + len) old
    ∧ toUnsigned a.bits (max (offp + len) old) = max (offp + len) old
    ∧ toSigned 32 (max (offp + len) old) = max (offp + len) old
    ∧ toSigned a.bits len = len
    ∧ toSigned 64 (offp + len) = offp + len := by
  unfold IsInt at hold
  cases a <;> simp only [Arch.bits, toSigned, toUnsigned, off_plus_len] <;> norm_num <;>
    omega

/-- The length a read hands to `copy_to_user` is the requested length clamped to the
bytes left before `size`, as long as the comparison does not wrap. -/
theorem read_len1 (a : Arch) (size offp : Int) (len : Nat) (hsz : IsInt size)
    (hlo : -2147483648 ≤ offp) (hle : offp ≤ size) (hlen : (len : Int) < 2 ^ a.bits)
    (hw : no_wrap a offp len) :
    (if sum_gt_size a offp len size then
        (toUnsigned a.bits (toSigned 64 (size - offp))).toNat
      else len) = min len (size - offp).toNat := by
  unfold IsInt at hsz
  cases a <;>
    simp only [Arch.bits, toSigned, toUnsigned, off_plus_len, sum_gt_size, no_wrap,
      decide_eq_true_eq] at * <;> norm_num at * <;> split <;> omega

/-- The return value and the new `*offp` of a read of `n` bytes inside the `int` range. -/
theorem read_ints (a : Arch) (offp : Int) (n : Nat) (h0 : 0 ≤ offp)
    (h1 : offp + n ≤ 2147483647) :
    toSigned a.bits n = n ∧ toSigned 64 (offp + n) = offp + n := by
  cases a <;> simp only [Arch.bits, toSigned] <;> norm_num <;> omega

/-! ## The kernel services on in-range requests -/

/-- A successful `krealloc` returns exactly the requested number of bytes. -/
theorem krealloc_ok (p : Option (List UInt8)) (n : Nat) (junk : Nat → UInt8) :
    ∃ m, krealloc p n true junk = some m ∧ m.length = n := by
  unfold krealloc
  by_cases hn : n = 0
  · exact ⟨[], by simp [hn], by simp [hn]⟩
  · exact ⟨(List.range n).map fun i => (p.getD []).getD i (junk i), by simp [hn], by simp⟩

/-- A complete `copy_from_user` inside the allocation keeps its length and stores the
user bytes at the offset. -/
theorem copy_from_user_ok (m : List UInt8) (off : Int) (ubuf : List UInt8) (h0 : 0 ≤ off)
    (h1 : off + ubuf.length ≤ (m.length : Int)) :
    ∃ m1, copy_from_user m off ubuf 0 = some (m1, 0) ∧ m1.length = m.length
      ∧ slice m1 off.toNat ubuf.length = ubuf := by
  unfold copy_from_user
  by_cases hz : ubuf.length = 0
  · refine ⟨m, by simp [hz], rfl, ?_⟩
    have : ubuf = [] := List.length_eq_zero.mp hz
    simp [slice, this]
  · have hk : off.toNat ≤ m.length := by omega
    have hk2 : off.toNat + ubuf.length ≤ m.length := by omega
    refine ⟨m.take off.toNat ++ (ubuf ++ m.drop (off.toNat + ubuf.length)),
      by simp [hz, h0, h1], ?_, ?_⟩
    · simp [List.length_append, List.length_take, List.length_drop]
      omega
    · simp [slice, List.length_take, Nat.min_eq_left hk]

/-- A complete `copy_to_user` inside the allocation delivers the bytes at the offset. -/
theorem copy_to_user_ok (m : List UInt8) (off : Int) (n : Nat) (h0 : 0 ≤ off)
    (h1 : off + n ≤ (m.length : Int)) :
    copy_to_user (some m) off n 0 = some (0, slice m off.toNat n) := by
  unfold copy_to_user
  by_cases hz : n = 0
  · simp [hz, slice]
  · simp [hz, h0, h1, slice]

/-! ## A successful write and the read that follows it -/

/-- A write on the data buffer with the lock free and the allocator and the user copy
succeeding, at an offset and length that lie inside the storage asked for: what it
returns and the state it leaves, with every C conversion spelled out. -/
theorem data_write_succeeds (a : Arch) (e : ecp5) (g : Globals) (ubuf : List UInt8)
    (offp : Int) (env : WriteEnv) (hfree : g.programming_lock = false)
    (henv : env.succeeds) (h0 : 0 ≤ offp)
    (hcap : offp + ubuf.length
      ≤ toUnsigned a.bits (max (toSigned a.bits (off_plus_len a offp ubuf.length))
          e.data_size)) :
    ∃ m1, ecp5_sspi_data_write a e g ubuf offp env
        = some ⟨toSigned a.bits ubuf.length,
            { e with data_mem := some m1,
                     data_size := toSigned 32
                       (max (toSigned a.bits (off_plus_len a offp ubuf.length))
                         e.data_size) },
            g, toSigned 64 (offp + ubuf.length)⟩
      ∧ (m1.length : Int)
          = toUnsigned a.bits (max (toSigned a.bits (off_plus_len a offp ubuf.length))
              e.data_size)
      ∧ slice m1 offp.toNat ubuf.length = ubuf := by
  obtain ⟨m, hm, hml⟩ :=
    krealloc_ok e.data_mem
      (toUnsigned a.bits (max (toSigned a.bits (off_plus_len a offp ubuf.length))
        e.data_size)).toNat env.junk
  obtain ⟨m1, hc, hl, hs⟩ := copy_from_user_ok m offp ubuf h0 (by omega)
  have hg : ({ g with programming_lock := false } : Globals) = g := by
    cases g; simp_all
  refine ⟨m1, ?_, by omega, hs⟩
  unfold ecp5_sspi_data_write
  simp only [henv.1, henv.2, hm, hfree, hc, hg]
  simp

/-- A write on the data buffer in the `int` range, with the lock free and the allocator
and the user copy succeeding: what it returns and the state it leaves. -/
theorem data_write_ok (a : Arch) (e : ecp5) (g : Globals) (ubuf : List UInt8) (offp : Int)
    (env : WriteEnv) (hfree : g.programming_lock = false) (henv : env.succeeds)
    (h0 : 0 ≤ offp) (h1 : offp + ubuf.length ≤ 2147483647) (hsz : IsInt e.data_size) :
    ∃ m1, ecp5_sspi_data_write a e g ubuf offp env
        = some ⟨ubuf.length,
            { e with data_mem := some m1,
                     data_size := max (offp + ubuf.length) e.data_size },
            g, offp + ubuf.length⟩
      ∧ (m1.length : Int) = max (offp + ubuf.length) e.data_size
      ∧ slice m1 offp.toNat ubuf.length = ubuf := by
  obtain ⟨_, i2, i3, i4, i5, i6⟩ := write_ints a offp ubuf.length e.data_size h0 h1 hsz
  obtain ⟨m1, hw, hl, hs⟩ := data_write_succeeds a e g ubuf offp env hfree henv h0
    (by rw [i2, i3]; omega)
  rw [i2, i3] at hl
  rw [i2, i4, i5, i6] at hw
  exact ⟨m1, hw, hl, hs⟩

/-- A write on the algo buffer with the lock free and the allocator and the user copy
succeeding, at an offset and length that lie inside the storage asked for: what it
returns and the state it leaves, with every C conversion spelled out. -/
theorem algo_write_succeeds (a : Arch) (e : ecp5) (g : Globals) (ubuf : List UInt8)
    (offp : Int) (env : WriteEnv) (hfree : g.programming_lock = false)
    (henv : env.succeeds) (h0 : 0 ≤ offp)
    (hcap : offp + ubuf.length
      ≤ toUnsigned a.bits (max (toSigned a.bits (off_plus_len a offp ubuf.length))
          e.algo_size)) :
    ∃ m1, ecp5_sspi_algo_write a e g ubuf offp env
        = some ⟨toSigned a.bits ubuf.length,
            { e with algo_mem := some m1,
                     algo_size := toSigned 32
                       (max (toSigned a.bits (off_plus_len a offp ubuf.length))
                         e.algo_size) },
            g, toSigned 64 (offp + ubuf.length)⟩
      ∧ (m1.length : Int)
          = toUnsigned a.bits (max (toSigned a.bits (off_plus_len a offp ubuf.length))
              e.algo_size)
      ∧ slice m1 offp.toNat ubuf.length = ubuf := by
  obtain ⟨m, hm, hml⟩ :=
    krealloc_ok e.algo_mem
      (toUnsigned a.bits (max (toSigned a.bits (off_plus_len a offp ubuf.length))
        e.algo_size)).toNat env.junk
  obtain ⟨m1, hc, hl, hs⟩ := copy_from_user_ok m offp ubuf h0 (by omega)
  have hg : ({ g with programming_lock := false } : Globals) = g := by
    cases g; simp_all
  refine ⟨m1, ?_, by omega, hs⟩
  unfold ecp5_sspi_algo_write
  simp only [henv.1, henv.2, hm, hfree, hc, hg]
  simp

/-- A write on the algo buffer in the `int` range, with the lock free and the allocator
and the user copy succeeding: what it returns and the state it leaves. -/
theorem algo_write_ok (a : Arch) (e : ecp5) (g : Globals) (ubuf : List UInt8) (offp : Int)
    (env : WriteEnv) (hfree : g.programming_lock = false) (henv : env.succeeds)
    (h0 : 0 ≤ offp) (h1 : offp + ubuf.length ≤ 2147483647) (hsz : IsInt e.algo_size) :
    ∃ m1, ecp5_sspi_algo_write a e g ubuf offp env
        = some ⟨ubuf.length,
            { e with algo_mem := some m1,
                     algo_size := max (offp + ubuf.length) e.algo_size },
            g, offp + ubuf.length⟩
      ∧ (m1.length : Int) = max (offp + ubuf.length) e.algo_size
      ∧ slice m1 offp.toNat ubuf.length = ubuf := by
  obtain ⟨_, i2, i3, i4, i5, i6⟩ := write_ints a offp ubuf.length e.algo_size h0 h1 hsz
  obtain ⟨m1, hw, hl, hs⟩ := algo_write_succeeds a e g ubuf offp env hfree henv h0
    (by rw [i2, i3]; omega)
  rw [i2, i3] at hl
  rw [i2, i4, i5, i6] at hw
  exact ⟨m1, hw, hl, hs⟩

/-- A read on the algo buffer at an offset inside `[0, size]` whose sum does not wrap
and whose copy succeeds: the clamped bytes. -/
theorem algo_read_ok (a : Arch) (e : ecp5) (m : List UInt8) (len : Nat) (offp : Int)
    (hm : e.algo_mem = some m) (hcap : e.algo_size ≤ (m.length : Int))
    (hsz : IsInt e.algo_size) (h0 : 0 ≤ offp) (h1 : offp ≤ e.algo_size)
    (hlen : (len : Int) < 2 ^ a.bits) (hw : no_wrap a offp len) :
    ecp5_sspi_algo_read a e len offp 0
      = some ⟨(min len (e.algo_size - offp).toNat : Nat),
              offp + (min len (e.algo_size - offp).toNat : Nat),
              slice m offp.toNat (min len (e.algo_size - offp).toNat)⟩ := by
  have hl := read_len1 a e.algo_size offp len hsz (by omega) h1 hlen hw
  have hn : offp + (min len (e.algo_size - offp).toNat : Nat) ≤ e.algo_size := by omega
  obtain ⟨r1, r2⟩ := read_ints a offp (min len (e.algo_size - offp).toNat) h0
    (by unfold IsInt at hsz; omega)
  have hc := copy_to_user_ok m offp (min len (e.algo_size - offp).toNat) h0 (by omega)
  unfold ecp5_sspi_algo_read
  simp only [hl, hm, hc, r1, r2]
  simp [not_lt.mpr h1]

/-- A read on the data buffer at an offset inside `[0, size]` whose sum does not wrap
and whose copy succeeds: the clamped bytes. -/
theorem data_read_ok (a : Arch) (e : ecp5) (m : List UInt8) (len : Nat) (offp : Int)
    (hm : e.data_mem = some m) (hcap : e.data_size ≤ (m.length : Int))
    (hsz : IsInt e.data_size) (h0 : 0 ≤ offp) (h1 : offp ≤ e.data_size)
    (hlen : (len : Int) < 2 ^ a.bits) (hw : no_wrap a offp len) :
    ecp5_sspi_data_read a e len offp 0
      = some ⟨(min len (e.data_size - offp).toNat : Nat),
              offp + (min len (e.data_size - offp).toNat : Nat),
              slice m offp.toNat (min len (e.data_size - offp).toNat)⟩ := by
  have hl := read_len1 a e.data_size offp len hsz (by omega) h1 hlen hw
  have hn : offp + (min len (e.data_size - offp).toNat : Nat) ≤ e.data_size := by omega
  obtain ⟨r1, r2⟩ := read_ints a offp (min len (e.data_size - offp).toNat) h0
    (by unfold IsInt at hsz; omega)
  have hc := copy_to_user_ok m offp (min len (e.data_size - offp).toNat) h0 (by omega)
  unfold ecp5_sspi_data_read
  simp only [hl, hm, hc, r1, r2]
  simp [not_lt.mpr h1]

/-! ## Round trip and size of a successful write (C1, C2) -/

/-- C1 as stated fails: one byte is written at offset 2^31 - 1 of an empty data buffer,
with the lock free and the allocator and the copy succeeding.  On an LP64 kernel the
write is accepted, `data_size` becomes `(int) 2^31`, which is negative, and the read at
the same offset and length returns zero bytes instead of the byte written.  On an ILP32
kernel the sum is negative as an `ssize_t`, zero bytes are asked of `krealloc`, and the
byte is stored outside the storage. -/
theorem roundtrip_fails_past_int_max :
    (∃ w r, ecp5_sspi_data_write .lp64 (ecp5_probe 0) Globals.init [7] 2147483647 env_ok
          = some w
      ∧ w.ret = 1
      ∧ ecp5_sspi_data_read .lp64 w.dev 1 2147483647 0 = some r
      ∧ r.ret = 0 ∧ r.ubuf = [] ∧ r.ubuf ≠ [7])
    ∧ ecp5_sspi_data_write .ilp32 (ecp5_probe 0) Globals.init [7] 2147483647 env_ok
        = none := by
  refine ⟨?_, by decide⟩
  obtain ⟨m1, hw, _, _⟩ := data_write_succeeds .lp64 (ecp5_probe 0) Globals.init [7]
    2147483647 env_ok rfl ⟨rfl, rfl⟩ (by decide) (by decide)
  refine ⟨_, ⟨0, 2147483647, []⟩, hw, by dsimp only; decide, ?_, rfl, rfl, by decide⟩
  have hs : toSigned 32 (max (toSigned Arch.lp64.bits
      (off_plus_len .lp64 2147483647 ([7] : List UInt8).length)) (ecp5_probe 0).data_size)
      = -2147483648 := by decide
  unfold ecp5_sspi_data_read
  rw [if_pos (by dsimp only; rw [hs]; decide)]

/-- C1, amended: for both buffers, every offset `0 ≤ offp` and every byte sequence with
`offp + len ≤ INT_MAX`, from any state with `programming_lock` free and with the
allocator and the user copies succeeding, `write(offp, data)` succeeds and the following
`read(offp, len)` returns `len` and delivers exactly `data`. -/
theorem write_read_roundtrip (a : Arch) (e : ecp5) (g : Globals) (ubuf : List UInt8)
    (offp : Int) (env : WriteEnv) (hfree : g.programming_lock = false)
    (henv : env.succeeds) (h0 : 0 ≤ offp) (h1 : offp + ubuf.length ≤ 2147483647)
    (hsa : IsInt e.algo_size) (hsd : IsInt e.data_size) :
    (∃ w, ecp5_sspi_algo_write a e g ubuf offp env = some w
        ∧ ecp5_sspi_algo_read a w.dev ubuf.length offp 0
            = some ⟨ubuf.length, offp + ubuf.length, ubuf⟩)
    ∧ (∃ w, ecp5_sspi_data_write a e g ubuf offp env = some w
        ∧ ecp5_sspi_data_read a w.dev ubuf.length offp 0
            = some ⟨ubuf.length, offp + ubuf.length, ubuf⟩) := by
  have hlen : (ubuf.length : Int) < 2 ^ a.bits := by
    cases a <;> simp only [Arch.bits] <;> omega
  have hw : no_wrap a offp ubuf.length := by
    cases a
    · trivial
    · exact ⟨h0, by omega⟩
  unfold IsInt at hsa hsd
  constructor
  · obtain ⟨m1, hwr, hl, hs⟩ := algo_write_ok a e g ubuf offp env hfree henv h0 h1 hsa
    refine ⟨_, hwr, ?_⟩
    have hr := algo_read_ok a
      { e with algo_mem := some m1, algo_size := max (offp + ubuf.length) e.algo_size }
      m1 ubuf.length offp rfl (by simp only; omega) (by unfold IsInt; simp only; omega) h0
      (by simp only; omega) hlen hw
    have hn : min ubuf.length
        (max (offp + (ubuf.length : Int)) e.algo_size - offp).toNat = ubuf.length := by
      omega
    simp only [hn] at hr
    rw [hr, hs]
  · obtain ⟨m1, hwr, hl, hs⟩ := data_write_ok a e g ubuf offp env hfree henv h0 h1 hsd
    refine ⟨_, hwr, ?_⟩
    have hr := data_read_ok a
      { e with data_mem := some m1, data_size := max (offp + ubuf.length) e.data_size }
      m1 ubuf.length offp rfl (by simp only; omega) (by unfold IsInt; simp only; omega) h0
      (by simp only; omega) hlen hw
    have hn : min ubuf.length
        (max (offp + (ubuf.length : Int)) e.data_size - offp).toNat = ubuf.length := by
      omega
    simp only [hn] at hr
    rw [hr, hs]

/-- Witness of C1: three bytes written at offset 5 of the ten-byte buffers. -/
theorem write_read_roundtrip_witness :
    (∃ w, ecp5_sspi_algo_write .ilp32 dev10 Globals.init [1, 2, 3] 5 env_ok = some w
        ∧ ecp5_sspi_algo_read .ilp32 w.dev ([1, 2, 3] : List UInt8).length 5 0
            = some ⟨([1, 2, 3] : List UInt8).length,
                5 + ([1, 2, 3] : List UInt8).length, [1, 2, 3]⟩)
    ∧ (∃ w, ecp5_sspi_data_write .ilp32 dev10 Globals.init [1, 2, 3] 5 env_ok = some w
        ∧ ecp5_sspi_data_read .ilp32 w.dev ([1, 2, 3] : List UInt8).length 5 0
            = some ⟨([1, 2, 3] : List UInt8).length,
                5 + ([1, 2, 3] : List UInt8).length, [1, 2, 3]⟩) :=
  write_read_roundtrip .ilp32 dev10 Globals.init [1, 2, 3] 5 env_ok rfl ⟨rfl, rfl⟩
    (by decide) (by decide) (by decide) (by decide)

/-- C2 as stated fails: three bytes are written at offset 2^31 - 3 of an empty buffer,
with the lock free and the allocator and the copy succeeding.  On an LP64 kernel the
write is accepted (it returns 3 and moves `*offp` to 2^31) and `data_size` is then -2^31,
not `max(0, 2^31)`.  On an ILP32 kernel zero bytes are asked of `krealloc` and the bytes
are stored outside the storage. -/
theorem write_size_wraps_past_int_max :
    (∃ w, ecp5_sspi_data_write .lp64 (ecp5_probe 0) Globals.init [1, 2, 3] 2147483645 env_ok
          = some w
      ∧ w.ret = 3 ∧ w.offp = 2147483648
      ∧ w.dev.data_size = -2147483648
      ∧ w.dev.data_size ≠ max (ecp5_probe 0).data_size (2147483645 + 3))
    ∧ ecp5_sspi_algo_write .ilp32 (ecp5_probe 0) Globals.init [1, 2, 3] 2147483645 env_ok
        = none := by
  refine ⟨?_, by decide⟩
  obtain ⟨m1, hw, _, _⟩ := data_write_succeeds .lp64 (ecp5_probe 0) Globals.init [1, 2, 3]
    2147483645 env_ok rfl ⟨rfl, rfl⟩ (by decide) (by decide)
  exact ⟨_, hw, by dsimp only; decide, by dsimp only; decide, by dsimp only; decide,
    by dsimp only; decide⟩

/-- C2, amended: for both buffers, every prior size, every offset `0 ≤ offp` and every
data with `offp + len ≤ INT_MAX`, a write that finds `programming_lock` free and whose
allocation and copy succeed returns `len`, moves `*offp` to `offp + len` and leaves the
size equal to `max(old size, offp + len)`. -/
theorem write_returns_len_and_grows (a : Arch) (e : ecp5) (g : Globals)
    (ubuf : List UInt8) (offp : Int) (env : WriteEnv) (hfree : g.programming_lock = false)
    (henv : env.succeeds) (h0 : 0 ≤ offp) (h1 : offp + ubuf.length ≤ 2147483647)
    (hsa : IsInt e.algo_size) (hsd : IsInt e.data_size) :
    (∃ w, ecp5_sspi_algo_write a e g ubuf offp env = some w
        ∧ w.ret = ubuf.length ∧ w.offp = offp + ubuf.length
        ∧ w.dev.algo_size = max e.algo_size (offp + ubuf.length))
    ∧ (∃ w, ecp5_sspi_data_write a e g ubuf offp env = some w
        ∧ w.ret = ubuf.length ∧ w.offp = offp + ubuf.length
        ∧ w.dev.data_size = max e.data_size (offp + ubuf.length)) := by
  constructor
  · obtain ⟨m1, hwr, _, _⟩ := algo_write_ok a e g ubuf offp env hfree henv h0 h1 hsa
    exact ⟨_, hwr, rfl, rfl, max_comm _ _⟩
  · obtain ⟨m1, hwr, _, _⟩ := data_write_ok a e g ubuf offp env hfree henv h0 h1 hsd
    exact ⟨_, hwr, rfl, rfl, max_comm _ _⟩

/-- Witness of C2: three bytes written at offset 5 of empty buffers. -/
theorem write_returns_len_and_grows_witness :
    (∃ w, ecp5_sspi_algo_write .lp64 (ecp5_probe 0) Globals.init [1, 2, 3] 5 env_ok = some w
        ∧ w.ret = ([1, 2, 3] : List UInt8).length
        ∧ w.offp = 5 + ([1, 2, 3] : List UInt8).length
        ∧ w.dev.algo_size
            = max (ecp5_probe 0).algo_size (5 + ([1, 2, 3] : List UInt8).length))
    ∧ (∃ w, ecp5_sspi_data_write .lp64 (ecp5_probe 0) Globals.init [1, 2, 3] 5 env_ok = some w
        ∧ w.ret = ([1, 2, 3] : List UInt8).length
        ∧ w.offp = 5 + ([1, 2, 3] : List UInt8).length
        ∧ w.dev.data_size
            = max (ecp5_probe 0).data_size (5 + ([1, 2, 3] : List UInt8).length)) :=
  write_returns_len_and_grows .lp64 (ecp5_probe 0) Globals.init [1, 2, 3] 5 env_ok rfl
    ⟨rfl, rfl⟩ (by decide) (by decide) (by decide) (by decide)

/-- The two sizes named with C2, evaluated: three bytes at offset 5 give size 8 on an
empty buffer and leave size 10 on a ten-byte buffer. -/
theorem write_size_examples :
    (ecp5_sspi_algo_write .ilp32 (ecp5_probe 0) Globals.init [1, 2, 3] 5 env_ok).map
        (fun w => (w.ret, w.dev.algo_size, w.offp)) = some (3, 8, 8)
    ∧ (ecp5_sspi_data_write .ilp32 (ecp5_probe 0) Globals.init [1, 2, 3] 5 env_ok).map
        (fun w => (w.ret, w.dev.data_size, w.offp)) = some (3, 8, 8)
    ∧ (ecp5_sspi_algo_write .ilp32 dev10 Globals.init [1, 2, 3] 5 env_ok).map
        (fun w => (w.ret, w.dev.algo_size, w.offp)) = some (3, 10, 8)
    ∧ (ecp5_sspi_data_write .ilp32 dev10 Globals.init [1, 2, 3] 5 env_ok).map
        (fun w => (w.ret, w.dev.data_size, w.offp)) = some (3, 10, 8) := by
  decide

/-! ## Reads at and before the end of the buffer (C9) -/

/-- C9 as stated fails: on an LP64 kernel, a read of 2^64 - 1 bytes at offset 10 of a
ten-byte buffer passes both tests (the sum wraps to 9, which is not above 10) and hands
the whole length to `copy_to_user` at the end of the storage.  When user space takes none
of it the handler returns `-EFAULT`; when it would take all of it the bytes are read past
the storage.  Either way the call does not return zero bytes without an error; a read of
7 bytes at the same offset does. -/
theorem read_at_end_wraps :
    ecp5_sspi_algo_read .lp64 dev10 18446744073709551615 10 18446744073709551615
        = some ⟨-EFAULT, 10, []⟩
    ∧ ecp5_sspi_data_read .lp64 dev10 18446744073709551615 10 18446744073709551615
        = some ⟨-EFAULT, 10, []⟩
    ∧ ecp5_sspi_algo_read .lp64 dev10 18446744073709551615 10 0 = none
    ∧ ecp5_sspi_data_read .lp64 dev10 18446744073709551615 10 0 = none
    ∧ ecp5_sspi_algo_read .lp64 dev10 7 10 0 = some ⟨0, 10, []⟩ := by
  decide

/-- C9, amended: for both buffers and every length, a read at an offset greater than
the size, or at an offset equal to the size when the sum `*offp + len` does not wrap
(`no_wrap`: always on ILP32; offset not negative and sum below 2^64 on LP64), returns 0,
delivers no byte and leaves `*offp` unchanged, whatever the user copy would do. -/
theorem read_at_or_past_end (a : Arch) (e : ecp5) (len : Nat) (offp : Int)
    (uncopied : Nat) (hsa : IsInt e.algo_size) (hsd : IsInt e.data_size)
    (hlen : (len : Int) < 2 ^ a.bits) :
    (e.algo_size < offp ∨ (offp = e.algo_size ∧ no_wrap a offp len) →
        ecp5_sspi_algo_read a e len offp uncopied = some ⟨0, offp, []⟩)
    ∧ (e.data_size < offp ∨ (offp = e.data_size ∧ no_wrap a offp len) →
        ecp5_sspi_data_read a e len offp uncopied = some ⟨0, offp, []⟩) := by
  constructor
  · rintro (h | ⟨h, hw⟩)
    · simp [ecp5_sspi_algo_read, h]
    · subst h
      have hl := read_len1 a e.algo_size e.algo_size len hsa (by unfold IsInt at hsa; omega)
        (by omega) hlen hw
      have hz : min len (e.algo_size - e.algo_size).toNat = 0 := by omega
      have h0 : toSigned a.bits 0 = 0 := by cases a <;> decide
      have h1 : toSigned 64 e.algo_size = e.algo_size := by
        unfold IsInt at hsa; simp only [toSigned]; omega
      unfold ecp5_sspi_algo_read
      simp only [hl, hz, copy_to_user]
      simp [h0, h1]
  · rintro (h | ⟨h, hw⟩)
    · simp [ecp5_sspi_data_read, h]
    · subst h
      have hl := read_len1 a e.data_size e.data_size len hsd (by unfold IsInt at hsd; omega)
        (by omega) hlen hw
      have hz : min len (e.data_size - e.data_size).toNat = 0 := by omega
      have h0 : toSigned a.bits 0 = 0 := by cases a <;> decide
      have h1 : toSigned 64 e.data_size = e.data_size := by
        unfold IsInt at hsd; simp only [toSigned]; omega
      unfold ecp5_sspi_data_read
      simp only [hl, hz, copy_to_user]
      simp [h0, h1]

/-- Witness of C9: a read of 7 bytes at offset 10, the end of the ten-byte algo buffer,
and at offset 12, past the end of the ten-byte data buffer, with a user copy that would
leave 3 bytes behind. -/
theorem read_at_or_past_end_witness :
    ecp5_sspi_algo_read .lp64 dev10 7 10 3 = some ⟨0, 10, []⟩
    ∧ ecp5_sspi_data_read .lp64 dev10 7 12 3 = some ⟨0, 12, []⟩ :=
  ⟨(read_at_or_past_end .lp64 dev10 7 10 3 (by decide) (by decide) (by decide)).1
      (Or.inr ⟨rfl, by decide⟩),
   (read_at_or_past_end .lp64 dev10 7 12 3 (by decide) (by decide) (by decide)).2
      (Or.inl (by decide))⟩

/-- On an LP64 kernel a read of 2^64 - 3 bytes at offset 5 of a ten-byte buffer is not
clamped to the 5 bytes left (the sum wraps to 2, which is not above 10): the handler hands
the whole length to `copy_to_user`, and there is no result in which the bytes 5..9 are
returned.  On an ILP32 kernel the read of 2^32 - 3 bytes is clamped to those 5 bytes. -/
theorem read_clamp_wraps :
    ecp5_sspi_algo_read .lp64 dev10 18446744073709551613 5 0 = none
    ∧ ecp5_sspi_algo_read .lp64 dev10 18446744073709551613 5 0
        ≠ some ⟨5, 10, [5, 6, 7, 8, 9]⟩
    ∧ ecp5_sspi_data_read .lp64 dev10 18446744073709551613 5 0
        ≠ some ⟨5, 10, [5, 6, 7, 8, 9]⟩
    ∧ ecp5_sspi_algo_read .ilp32 dev10 4294967293 5 0 = some ⟨5, 10, [5, 6, 7, 8, 9]⟩ := by
  decide

/-- For both buffers whose storage holds `size` bytes, every offset with
`0 ≤ offp < size` and every length whose sum with the offset does not wrap (`no_wrap`:
every length on ILP32, `offp + len < 2^64` on LP64), a read from which user space takes
every byte returns `n = min(len, size - offp)`, delivers exactly the bytes
`[offp, offp + n)` of the buffer and advances `*offp` by `n`; `offp + n` never exceeds
`size`. -/
theorem read_clamped (a : Arch) (e : ecp5) (len : Nat) (offp : Int) (h0 : 0 ≤ offp)
    (hlen : (len : Int) < 2 ^ a.bits) (hw : no_wrap a offp len) :
    (∀ m, e.algo_mem = some m → e.algo_size ≤ (m.length : Int) → IsInt e.algo_size →
        offp < e.algo_size →
        ∃ n : Nat, (n : Int) = min (len : Int) (e.algo_size - offp)
          ∧ offp + n ≤ e.algo_size
          ∧ ecp5_sspi_algo_read a e len offp 0
              = some ⟨n, offp + n, slice m offp.toNat n⟩)
    ∧ (∀ m, e.data_mem = some m → e.data_size ≤ (m.length : Int) → IsInt e.data_size →
        offp < e.data_size →
        ∃ n : Nat, (n : Int) = min (len : Int) (e.data_size - offp)
          ∧ offp + n ≤ e.data_size
          ∧ ecp5_sspi_data_read a e len offp 0
              = some ⟨n, offp + n, slice m offp.toNat n⟩) := by
  constructor
  · intro m hm hcap hsz h1
    exact ⟨min len (e.algo_size - offp).toNat, by omega, by omega,
      algo_read_ok a e m len offp hm hcap hsz h0 (le_of_lt h1) hlen hw⟩
  · intro m hm hcap hsz h1
    exact ⟨min len (e.data_size - offp).toNat, by omega, by omega,
      data_read_ok a e m len offp hm hcap hsz h0 (le_of_lt h1) hlen hw⟩

/-- The clamped read at a concrete input: a read of 7 bytes at offset 4 of the ten-byte
buffers returns the six bytes 4..9. -/
theorem read_clamped_witness :
    (∃ n : Nat, (n : Int) = min ((7 : Nat) : Int) (dev10.algo_size - 4)
      ∧ (4 : Int) + n ≤ dev10.algo_size
      ∧ ecp5_sspi_algo_read .lp64 dev10 7 4 0
          = some ⟨n, 4 + n, slice [0, 1, 2, 3, 4, 5, 6, 7, 8, 9] (4 : Int).toNat n⟩)
    ∧ (∃ n : Nat, (n : Int) = min ((7 : Nat) : Int) (dev10.data_size - 4)
      ∧ (4 : Int) + n ≤ dev10.data_size
      ∧ ecp5_sspi_data_read .lp64 dev10 7 4 0
          = some ⟨n, 4 + n, slice [0, 1, 2, 3, 4, 5, 6, 7, 8, 9] (4 : Int).toNat n⟩) :=
  ⟨(read_clamped .lp64 dev10 7 4 (by decide) (by decide) (by decide)).1
      [0, 1, 2, 3, 4, 5, 6, 7, 8, 9] rfl (by decide) (by decide) (by decide),
   (read_clamped .lp64 dev10 7 4 (by decide) (by decide) (by decide)).2
      [0, 1, 2, 3, 4, 5, 6, 7, 8, 9] rfl (by decide) (by decide) (by decide)⟩

/-- A read of 7 bytes at offset 4 of the ten-byte buffers, evaluated. -/
theorem read_clamped_example :
    ecp5_sspi_algo_read .lp64 dev10 7 4 0 = some ⟨6, 10, [4, 5, 6, 7, 8, 9]⟩
    ∧ ecp5_sspi_data_read .ilp32 dev10 7 4 0 = some ⟨6, 10, [4, 5, 6, 7, 8, 9]⟩ := by
  decide

/-! ## Seek (C11, C18) -/

/-- The seek handlers against the specification's seek, for a size in `[0, INT_MAX]`
and a requested position that fits `loff_t`. -/
theorem lseek_body_eq_spec (size f_pos off whence : Int) (h0 : 0 ≤ size)
    (hsz : IsInt size)
    (hfit : ∀ p, seek_target f_pos size off whence = some p → fits_loff p) :
    lseek_body (toUnsigned 32 size) f_pos off whence = seek_spec f_pos size off whence := by
  unfold IsInt at hsz
  have hs : toUnsigned 32 size = size := by simp only [toUnsigned]; omega
  have key : ∀ p : Int, (if p < 0 then ((-EINVAL, f_pos) : Int × Int)
      else ((if p > size then size else p), (if p > size then size else p)))
      = (if p < 0 then (-EINVAL, f_pos) else (min p size, min p size)) := by
    intro p
    split
    · rfl
    · split
      · rw [min_eq_right (by omega)]
      · rw [min_eq_left (by omega)]
  rw [hs]
  unfold lseek_body seek_spec
  by_cases h1 : whence = SEEK_SET
  · subst h1
    simp only [seek_target, if_true]
    exact key off
  · by_cases h2 : whence = SEEK_CUR
    · subst h2
      have hp := hfit (f_pos + off) (by simp [seek_target, h1])
      unfold fits_loff at hp
      have : toSigned 64 (f_pos + off) = f_pos + off := by simp only [toSigned]; omega
      simp only [seek_target, h1, if_true, if_false, this]
      exact key _
    · by_cases h3 : whence = SEEK_END
      · subst h3
        have hp := hfit (size + off) (by simp [seek_target, h1, h2])
        unfold fits_loff at hp
        have : toSigned 64 (size + off) = size + off := by simp only [toSigned]; omega
        simp only [seek_target, h1, h2, if_true, if_false, this]
        exact key _
      · simp only [seek_target, h1, h2, h3, if_false]

/-- When the specification's seek fails and when it succeeds, for a size that is not
negative. -/
theorem seek_spec_cases (cursor size off whence : Int) (h0 : 0 ≤ size) :
    ((seek_spec cursor size off whence).1 = -EINVAL
        ↔ ∀ p, seek_target cursor size off whence = some p → p < 0)
    ∧ (∀ p, seek_target cursor size off whence = some p → 0 ≤ p →
        seek_spec cursor size off whence = (min p size, min p size)) := by
  unfold seek_spec
  cases h : seek_target cursor size off whence with
  | none => simp
  | some q =>
    by_cases hq : q < 0
    · simp only [hq, if_true, Option.some.injEq, forall_eq', true_iff]
      exact ⟨trivial, fun h1 => absurd hq (not_lt.mpr h1)⟩
    · simp only [hq, if_false, Option.some.injEq, forall_eq', iff_false, EINVAL]
      exact ⟨by omega, fun _ => trivial⟩

/-- C11 as stated fails: with the cursor at 1 in a ten-byte buffer, a seek from the
current position by 2^63 - 1 asks for position 2^63, which is not negative, so the claim
has it return `min(2^63, 10) = 10`; the handler adds in `loff_t`, gets -2^63 and returns
`-EINVAL`.  The same happens from the end of the buffer. -/
theorem lseek_wraps_past_loff_max :
    ecp5_sspi_algo_lseek dev10 1 9223372036854775807 SEEK_CUR = (-EINVAL, 1)
    ∧ seek_target 1 dev10.algo_size 9223372036854775807 SEEK_CUR
        = some 9223372036854775808
    ∧ seek_spec 1 dev10.algo_size 9223372036854775807 SEEK_CUR = (10, 10)
    ∧ ecp5_sspi_data_lseek dev10 1 9223372036854775807 SEEK_END = (-EINVAL, 1)
    ∧ seek_spec 1 dev10.data_size 9223372036854775807 SEEK_END = (10, 10) := by
  decide

/-- C11, amended: for both buffers, every cursor, every size in `[0, INT_MAX]`, every
offset and origin such that the position `p` asked for (`offset`, `cursor + offset` or
`size + offset`) fits the 64-bit `loff_t`: the handler does what the specification's seek
does.  It returns `-EINVAL` if and only if the origin is unrecognised or `p < 0`, and
otherwise returns `min(p, size)` and sets the cursor to it. -/
theorem lseek_refines_spec (e : ecp5) (f_pos off whence : Int)
    (ha0 : 0 ≤ e.algo_size) (hsa : IsInt e.algo_size)
    (hd0 : 0 ≤ e.data_size) (hsd : IsInt e.data_size) :
    ((∀ p, seek_target f_pos e.algo_size off whence = some p → fits_loff p) →
        ecp5_sspi_algo_lseek e f_pos off whence = seek_spec f_pos e.algo_size off whence
        ∧ ((ecp5_sspi_algo_lseek e f_pos off whence).1 = -EINVAL
            ↔ ∀ p, seek_target f_pos e.algo_size off whence = some p → p < 0)
        ∧ (∀ p, seek_target f_pos e.algo_size off whence = some p → 0 ≤ p →
            ecp5_sspi_algo_lseek e f_pos off whence
              = (min p e.algo_size, min p e.algo_size)))
    ∧ ((∀ p, seek_target f_pos e.data_size off whence = some p → fits_loff p) →
        ecp5_sspi_data_lseek e f_pos off whence = seek_spec f_pos e.data_size off whence
        ∧ ((ecp5_sspi_data_lseek e f_pos off whence).1 = -EINVAL
            ↔ ∀ p, seek_target f_pos e.data_size off whence = some p → p < 0)
        ∧ (∀ p, seek_target f_pos e.data_size off whence = some p → 0 ≤ p →
            ecp5_sspi_data_lseek e f_pos off whence
              = (min p e.data_size, min p e.data_size))) := by
  constructor
  · intro hfit
    have h := lseek_body_eq_spec e.algo_size f_pos off whence ha0 hsa hfit
    have hc := seek_spec_cases f_pos e.algo_size off whence ha0
    unfold ecp5_sspi_algo_lseek
    rw [h]
    exact ⟨rfl, hc.1, hc.2⟩
  · intro hfit
    have h := lseek_body_eq_spec e.data_size f_pos off whence hd0 hsd hfit
    have hc := seek_spec_cases f_pos e.data_size off whence hd0
    unfold ecp5_sspi_data_lseek
    rw [h]
    exact ⟨rfl, hc.1, hc.2⟩

/-- Witness of C11: with the cursor at 3 in the ten-byte buffers, a seek by 100 from the
current position returns 10 on the algo buffer, and a seek to -1 from the start fails on
the data buffer. -/
theorem lseek_refines_spec_witness :
    ecp5_sspi_algo_lseek dev10 3 100 SEEK_CUR = (10, 10)
    ∧ (ecp5_sspi_data_lseek dev10 3 (-1) SEEK_SET).1 = -EINVAL :=
  ⟨((lseek_refines_spec dev10 3 100 SEEK_CUR (by decide) (by decide) (by decide)
        (by decide)).1 (by decide)).2.2 103 (by decide) (by decide),
   ((lseek_refines_spec dev10 3 (-1) SEEK_SET (by decide) (by decide) (by decide)
        (by decide)).2 (by decide)).2.1.mpr (by decide)⟩

/-- The three seeks named with C11, evaluated on the ten-byte buffers with the cursor
at 3: from the start to -1, from the end by 0, from the current position by 100; and an
origin that is none of the three. -/
theorem lseek_examples :
    ecp5_sspi_algo_lseek dev10 3 (-1) SEEK_SET = (-EINVAL, 3)
    ∧ ecp5_sspi_algo_lseek dev10 3 0 SEEK_END = (10, 10)
    ∧ ecp5_sspi_algo_lseek dev10 3 100 SEEK_CUR = (10, 10)
    ∧ ecp5_sspi_data_lseek dev10 3 (-1) SEEK_SET = (-EINVAL, 3)
    ∧ ecp5_sspi_data_lseek dev10 3 0 SEEK_END = (10, 10)
    ∧ ecp5_sspi_data_lseek dev10 3 100 SEEK_CUR = (10, 10)
    ∧ ecp5_sspi_data_lseek dev10 3 0 7 = (-EINVAL, 3) := by
  decide

/-- A seek that returns `-EINVAL` has kept `fp->f_pos`, whatever the loaded size. -/
theorem lseek_body_failure_keeps_pos (size f_pos off whence : Int)
    (h : (lseek_body (toUnsigned 32 size) f_pos off whence).1 = -EINVAL) :
    (lseek_body (toUnsigned 32 size) f_pos off whence).2 = f_pos := by
  have hs : 0 ≤ toUnsigned 32 size := by
    simp only [toUnsigned]; omega
  revert h
  generalize toUnsigned 32 size = s at hs ⊢
  unfold lseek_body
  simp only [EINVAL]
  split
  · intro _; rfl
  · split
    · intro _; rfl
    · split <;> intro h <;> simp only at h <;> omega

/-- C18: for both buffers and every cursor, size, offset and origin, a seek that returns
`-EINVAL` leaves `fp->f_pos` as it was (the handlers have no store to the device record,
so size and bytes are not touched by any seek); and a seek with an unrecognised origin,
or from the start to a negative offset, does return `-EINVAL`. -/
theorem lseek_failure_keeps_state (e : ecp5) (f_pos off whence : Int) :
    ((ecp5_sspi_algo_lseek e f_pos off whence).1 = -EINVAL →
        (ecp5_sspi_algo_lseek e f_pos off whence).2 = f_pos)
    ∧ ((ecp5_sspi_data_lseek e f_pos off whence).1 = -EINVAL →
        (ecp5_sspi_data_lseek e f_pos off whence).2 = f_pos)
    ∧ (whence ≠ SEEK_SET → whence ≠ SEEK_CUR → whence ≠ SEEK_END →
        ecp5_sspi_algo_lseek e f_pos off whence = (-EINVAL, f_pos)
        ∧ ecp5_sspi_data_lseek e f_pos off whence = (-EINVAL, f_pos))
    ∧ (off < 0 →
        ecp5_sspi_algo_lseek e f_pos off SEEK_SET = (-EINVAL, f_pos)
        ∧ ecp5_sspi_data_lseek e f_pos off SEEK_SET = (-EINVAL, f_pos)) := by
  refine ⟨lseek_body_failure_keeps_pos e.algo_size f_pos off whence,
    lseek_body_failure_keeps_pos e.data_size f_pos off whence, ?_, ?_⟩
  · intro h1 h2 h3
    simp [ecp5_sspi_algo_lseek, ecp5_sspi_data_lseek, lseek_body, h1, h2, h3]
  · intro h
    simp [ecp5_sspi_algo_lseek, ecp5_sspi_data_lseek, lseek_body, h]

/-- Witness of C18: with the cursor at 3, a seek from the current position by -4 on the
algo buffer and a seek with origin 7 on the data buffer fail and keep the cursor. -/
theorem lseek_failure_keeps_state_witness :
    (ecp5_sspi_algo_lseek dev10 3 (-4) SEEK_CUR).2 = 3
    ∧ (ecp5_sspi_data_lseek dev10 3 0 7).2 = 3
    ∧ ecp5_sspi_data_lseek dev10 3 0 7 = (-EINVAL, 3)
    ∧ ecp5_sspi_algo_lseek dev10 3 (-1) SEEK_SET = (-EINVAL, 3) :=
  ⟨(lseek_failure_keeps_state dev10 3 (-4) SEEK_CUR).1 (by decide),
   (lseek_failure_keeps_state dev10 3 0 7).2.1 (by decide),
   ((lseek_failure_keeps_state dev10 3 0 7).2.2.1 (by decide) (by decide) (by decide)).2,
   ((lseek_failure_keeps_state dev10 3 (-1) SEEK_SET).2.2.2 (by decide)).1⟩

/-! ## End to end: stage both images, then program (C12) -/

/-- A write at offset 0 of an empty buffer leaves exactly the written bytes as storage. -/
theorem storage_eq_of_slice (m ubuf : List UInt8) (hl : (m.length : Int) = ubuf.length)
    (hs : slice m (0 : Int).toNat ubuf.length = ubuf) : m = ubuf := by
  have h : m.length = ubuf.length := by omega
  simp only [slice, Int.toNat_zero, List.drop_zero] at hs
  rw [← h, List.take_length] at hs
  exact hs

/-- C12 as stated fails: on an LP64 kernel, an algo image of 2^31 bytes written at
offset 0 of a fresh device (lock free, allocator and copy succeeding) is accepted, the
write returns 2^31, and `algo_size` reads -2^31, not the length of the image. -/
theorem end_to_end_fails_past_int_max :
    ∃ w, ecp5_sspi_algo_write .lp64 (ecp5_probe 0) Globals.init
          (List.replicate 2147483648 0) 0 env_ok = some w
      ∧ w.ret = 2147483648
      ∧ algo_size_show w.dev = -2147483648
      ∧ algo_size_show w.dev ≠ ((List.replicate 2147483648 (0 : UInt8)).length : Int) := by
  have hlen : (List.replicate 2147483648 (0 : UInt8)).length = 2147483648 :=
    List.length_replicate _ _
  obtain ⟨m1, hw, _, _⟩ := algo_write_succeeds .lp64 (ecp5_probe 0) Globals.init
    (List.replicate 2147483648 0) 0 env_ok rfl ⟨rfl, rfl⟩ (by decide)
    (by rw [hlen]; decide)
  rw [hlen] at hw
  exact ⟨_, hw, by dsimp only; decide, by dsimp only [algo_size_show]; decide,
    by rw [hlen]; dsimp only [algo_size_show]; decide⟩

/-- C12, amended: for both data models, every algo image `a` and data image `d` of at
most `INT_MAX` bytes and every engine: on a freshly probed device with `programming_lock`
free, writing `a` to algo at offset 0 and `d` to data at offset 0 (allocations and
copies succeeding) and then triggering `program_store` hands `SSPIEm_preset` exactly
`(a, len(a), d, len(d))` and then calls `SSPIEm(0xFFFFFFFF)`; afterwards `algo_size`
shows `len(a)`, `data_size` shows `len(d)` and `program` shows the status `SSPIEm`
returned. -/
theorem end_to_end (arch : Arch) (spi : Nat) (g : Globals) (a d : List UInt8)
    (enva envd : WriteEnv) (count : Nat) (eng : Engine)
    (hfree : g.programming_lock = false)
    (ha : (a.length : Int) ≤ 2147483647) (hd : (d.length : Int) ≤ 2147483647)
    (hea : enva.succeeds) (hed : envd.succeeds) :
    ∃ wa wd, ecp5_sspi_algo_write arch (ecp5_probe spi) g a 0 enva = some wa
      ∧ ecp5_sspi_data_write arch wa.dev wa.globals d 0 envd = some wd
      ∧ (program_store arch wd.dev wd.globals count eng).calls
          = [EngineCall.preset (some a) a.length (some d) d.length,
             EngineCall.program 0xFFFFFFFF]
      ∧ algo_size_show (program_store arch wd.dev wd.globals count eng).dev = a.length
      ∧ data_size_show (program_store arch wd.dev wd.globals count eng).dev = d.length
      ∧ program_show (program_store arch wd.dev wd.globals count eng).dev
          = eng.SSPIEm 0xFFFFFFFF := by
  obtain ⟨ma, hwa, hla, hsa⟩ := algo_write_ok arch (ecp5_probe spi) g a 0 enva hfree hea
    (le_refl 0) (by omega) (by unfold IsInt; simp only [ecp5_probe]; omega)
  have hma : ma = a := storage_eq_of_slice ma a
    (by rw [hla]; simp only [ecp5_probe]; omega) hsa
  subst hma
  obtain ⟨md, hwd, hld, hsd⟩ := data_write_ok arch
    { ecp5_probe spi with
      algo_mem := some ma, algo_size := max (0 + (ma.length : Int)) (ecp5_probe spi).algo_size }
    g d 0 envd hfree hed (le_refl 0) (by omega)
    (by unfold IsInt; simp only [ecp5_probe]; omega)
  have hmd : md = d := storage_eq_of_slice md d
    (by rw [hld]; simp only [ecp5_probe]; omega) hsd
  subst hmd
  refine ⟨_, _, hwa, hwd, ?_, ?_, ?_, ?_⟩ <;>
    simp [program_store, hfree, ecp5_probe, algo_size_show, data_size_show, program_show]

/-- Witness of C12: the four bytes DE AD BE EF to algo, the two bytes 01 02 to data, and
an engine that reports 2 from `SSPIEm`. -/
theorem end_to_end_witness :
    ∃ wa wd, ecp5_sspi_algo_write .ilp32 (ecp5_probe 0) Globals.init
          [0xDE, 0xAD, 0xBE, 0xEF] 0 env_ok = some wa
      ∧ ecp5_sspi_data_write .ilp32 wa.dev wa.globals [0x01, 0x02] 0 env_ok = some wd
      ∧ (program_store .ilp32 wd.dev wd.globals 1 (engine_const 0 2)).calls
          = [EngineCall.preset (some [0xDE, 0xAD, 0xBE, 0xEF])
               ([0xDE, 0xAD, 0xBE, 0xEF] : List UInt8).length
               (some [0x01, 0x02]) ([0x01, 0x02] : List UInt8).length,
             EngineCall.program 0xFFFFFFFF]
      ∧ algo_size_show (program_store .ilp32 wd.dev wd.globals 1 (engine_const 0 2)).dev
          = ([0xDE, 0xAD, 0xBE, 0xEF] : List UInt8).length
      ∧ data_size_show (program_store .ilp32 wd.dev wd.globals 1 (engine_const 0 2)).dev
          = ([0x01, 0x02] : List UInt8).length
      ∧ program_show (program_store .ilp32 wd.dev wd.globals 1 (engine_const 0 2)).dev
          = (engine_const 0 2).SSPIEm 0xFFFFFFFF :=
  end_to_end .ilp32 0 Globals.init [0xDE, 0xAD, 0xBE, 0xEF] [0x01, 0x02] env_ok env_ok 1
    (engine_const 0 2) rfl (by decide) (by decide) ⟨rfl, rfl⟩ ⟨rfl, rfl⟩

/-- The run of the C12 witness, evaluated: sizes 4 and 2, result 2. -/
theorem end_to_end_example :
    ((ecp5_sspi_algo_write .lp64 (ecp5_probe 0) Globals.init
        [0xDE, 0xAD, 0xBE, 0xEF] 0 env_ok).bind fun wa =>
      (ecp5_sspi_data_write .lp64 wa.dev wa.globals [0x01, 0x02] 0 env_ok).map fun wd =>
        (algo_size_show (program_store .lp64 wd.dev wd.globals 1 (engine_const 0 2)).dev,
         data_size_show (program_store .lp64 wd.dev wd.globals 1 (engine_const 0 2)).dev,
         program_show (program_store .lp64 wd.dev wd.globals 1 (engine_const 0 2)).dev,
         (program_store .lp64 wd.dev wd.globals 1 (engine_const 0 2)).calls))
      = some (4, 2, 2,
          [EngineCall.preset (some [0xDE, 0xAD, 0xBE, 0xEF]) 4 (some [0x01, 0x02]) 2,
           EngineCall.program 0xFFFFFFFF]) := by
  decide

/-! ## What a write leaves of the other buffer -/

/-- A `copy_from_user` that can fetch every byte reports none left behind. -/
theorem copy_from_user_complete (m : List UInt8) (off : Int) (ubuf m1 : List UInt8)
    (bad : Nat) (h : copy_from_user m off ubuf 0 = some (m1, bad)) : bad = 0 := by
  unfold copy_from_user at h
  simp only [Nat.zero_min] at h
  split at h
  · simp only [Option.some.injEq, Prod.mk.injEq] at h; exact h.2.symm
  · split at h
    · simp only [Option.some.injEq, Prod.mk.injEq] at h; exact h.2.symm
    · exact absurd h (by simp)

/-- A write that finds `programming_lock` free and whose user copy can fetch every byte
leaves the lock free on each of its returns. -/
theorem write_complete_copy_releases_lock (a : Arch) (e : ecp5) (g : Globals)
    (ubuf : List UInt8) (offp : Int) (env : WriteEnv) (r : WriteResult)
    (hfree : g.programming_lock = false) (hcopy : env.uncopied = 0)
    (h : ecp5_sspi_algo_write a e g ubuf offp env = some r
      ∨ ecp5_sspi_data_write a e g ubuf offp env = some r) :
    r.globals.programming_lock = false := by
  rcases h with h | h
  · unfold ecp5_sspi_algo_write at h
    simp only [hfree, hcopy] at h
    split at h
    · simp only [Option.some.injEq] at h; subst h; exact hfree
    · simp only [Bool.false_eq_true, if_false] at h
      split at h
      · exact absurd h (by simp)
      · rename_i hc
        have hb := copy_from_user_complete _ _ _ _ _ hc
        subst hb
        simp only [ne_eq, not_true_eq_false, if_false, Option.some.injEq] at h
        subst h; rfl
  · unfold ecp5_sspi_data_write at h
    simp only [hfree, hcopy] at h
    split at h
    · simp only [Option.some.injEq] at h; subst h; exact hfree
    · simp only [Bool.false_eq_true, if_false] at h
      split at h
      · exact absurd h (by simp)
      · rename_i hc
        have hb := copy_from_user_complete _ _ _ _ _ hc
        subst hb
        simp only [ne_eq, not_true_eq_false, if_false, Option.some.injEq] at h
        subst h; rfl

/-- C14, at the failing input: `programming_lock` is free and four bytes are written at
offset 0 of an empty buffer from a user buffer whose last byte cannot be read.  Both
write handlers return `-EFAULT` with `programming_lock` still held; a following write
then gets `-EBUSY` and a following `program_store` makes no engine call and leaves
`programming_result` as it was. -/
theorem write_fault_keeps_lock_held :
    (ecp5_sspi_algo_write .lp64 (ecp5_probe 0) Globals.init [1, 2, 3, 4] 0 env_fault).map
        (fun r => (r.ret, r.globals.programming_lock)) = some (-EFAULT, true)
    ∧ (ecp5_sspi_data_write .lp64 (ecp5_probe 0) Globals.init [1, 2, 3, 4] 0 env_fault).map
        (fun r => (r.ret, r.globals.programming_lock)) = some (-EFAULT, true)
    ∧ ((ecp5_sspi_data_write .lp64 (ecp5_probe 0) Globals.init [1, 2, 3, 4] 0
          env_fault).bind fun r =>
        (ecp5_sspi_data_write .lp64 r.dev r.globals [9] 0 env_ok).map fun r2 => r2.ret)
        = some (-EBUSY)
    ∧ ((ecp5_sspi_data_write .lp64 (ecp5_probe 0) Globals.init [1, 2, 3, 4] 0
          env_fault).map fun r =>
        ((program_store .lp64 r.dev r.globals 1 (engine_const 0 2)).calls,
         (program_store .lp64 r.dev r.globals 1 (engine_const 0 2)).dev.programming_result))
        = some ([], 0) := by
  decide

/-! ## The algo handlers against the data handlers (C15) -/

/-- The handlers of the two buffers other than `write` are the same handler up to the
exchange of the two buffers. -/
theorem handler_pairs_identical (a : Arch) (e : ecp5) (len uncopied : Nat)
    (f_pos off whence : Int) :
    ecp5_sspi_data_open e.swap
        = ((ecp5_sspi_algo_open e).1, (ecp5_sspi_algo_open e).2.swap)
    ∧ ecp5_sspi_data_release e.swap
        = ((ecp5_sspi_algo_release e).1, (ecp5_sspi_algo_release e).2.swap)
    ∧ ecp5_sspi_data_read a e.swap len f_pos uncopied
        = ecp5_sspi_algo_read a e len f_pos uncopied
    ∧ ecp5_sspi_data_lseek e.swap f_pos off whence
        = ecp5_sspi_algo_lseek e f_pos off whence := by
  refine ⟨?_, rfl, rfl, rfl⟩
  unfold ecp5_sspi_data_open ecp5_sspi_algo_open
  by_cases h : e.algo_lock = true <;> simp [ecp5.swap, h]

/-- The two write handlers return the same value and leave the same storage, lock and
`*offp`; they leave the same size whenever the call is not refused (the return value is
not negative). -/
theorem write_pair_agrees (a : Arch) (e : ecp5) (g : Globals) (ubuf : List UInt8)
    (offp : Int) (env : WriteEnv) :
    (ecp5_sspi_data_write a e.swap g ubuf offp env).map
        (fun r => (r.ret, r.dev.data_mem, r.globals, r.offp))
      = (ecp5_sspi_algo_write a e g ubuf offp env).map
        (fun r => (r.ret, r.dev.algo_mem, r.globals, r.offp))
    ∧ (ecp5_sspi_data_write a e.swap g ubuf offp env).map
        (fun r => if 0 ≤ r.ret then some r.dev.data_size else none)
      = (ecp5_sspi_algo_write a e g ubuf offp env).map
        (fun r => if 0 ≤ r.ret then some r.dev.algo_size else none) := by
  unfold ecp5_sspi_data_write ecp5_sspi_algo_write
  simp only [ecp5.swap]
  constructor
  · split
    · rfl
    · split
      · rfl
      · split
        · rfl
        · split <;> rfl
  · split
    · simp [EFAULT]
    · split
      · simp [EBUSY]
      · split
        · rfl
        · split
          · simp [EFAULT]
          · rfl

/-- C15, at the failing input: both buffers hold the same ten bytes, `programming_lock`
is held, and the same three bytes are written at offset 0 of each.  Both handlers return
`-EBUSY` with the storage and `*offp` untouched, but `ecp5_sspi_algo_write` leaves size 3
where `ecp5_sspi_data_write` leaves size 10. -/
theorem algo_data_write_differ :
    (ecp5_sspi_algo_write .lp64 dev10 globals_busy [1, 2, 3] 0 env_ok).map
        (fun r => (r.ret, r.dev.algo_size, r.dev.algo_mem, r.offp))
      = some (-EBUSY, 3, some [0, 1, 2, 3, 4, 5, 6, 7, 8, 9], 0)
    ∧ (ecp5_sspi_data_write .lp64 dev10 globals_busy [1, 2, 3] 0 env_ok).map
        (fun r => (r.ret, r.dev.data_size, r.dev.data_mem, r.offp))
      = some (-EBUSY, 10, some [0, 1, 2, 3, 4, 5, 6, 7, 8, 9], 0)
    ∧ dev10.swap = dev10
    ∧ (ecp5_sspi_algo_write .lp64 dev10 globals_busy [1, 2, 3] 0 env_ok).map
        (fun r => r.dev.algo_size)
      ≠ (ecp5_sspi_data_write .lp64 dev10.swap globals_busy [1, 2, 3] 0 env_ok).map
        (fun r => r.dev.data_size) :=
  ⟨by decide, by decide, by decide, by decide⟩

/-! ## The invariants `0 ≤ cursor ≤ size` and `size ≥ 0` (C16, C17) -/

/-- A seek keeps the cursor inside `[0, size]`, for a size in `[0, INT_MAX]`. -/
theorem lseek_keeps_cursor_inv (e : ecp5) (f_pos off whence : Int)
    (ha0 : 0 ≤ e.algo_size) (hsa : IsInt e.algo_size)
    (hd0 : 0 ≤ e.data_size) (hsd : IsInt e.data_size) :
    (cursor_inv f_pos e.algo_size →
        cursor_inv (ecp5_sspi_algo_lseek e f_pos off whence).2 e.algo_size)
    ∧ (cursor_inv f_pos e.data_size →
        cursor_inv (ecp5_sspi_data_lseek e f_pos off whence).2 e.data_size) := by
  unfold IsInt at hsa hsd
  have hua : toUnsigned 32 e.algo_size = e.algo_size := by simp only [toUnsigned]; omega
  have hud : toUnsigned 32 e.data_size = e.data_size := by simp only [toUnsigned]; omega
  have key : ∀ size : Int, 0 ≤ size → cursor_inv f_pos size →
      cursor_inv (lseek_body size f_pos off whence).2 size := by
    intro size h0 hinv
    unfold cursor_inv at *
    unfold lseek_body
    simp only []
    split
    · exact hinv
    · split
      · exact hinv
      · split <;> simp only [] <;> omega
  unfold ecp5_sspi_algo_lseek ecp5_sspi_data_lseek
  rw [hua, hud]
  exact ⟨key _ ha0, key _ hd0⟩

/-- On every return `ecp5_sspi_data_write` keeps a cursor that was inside `[0, size]`
inside it, and when it accepts the bytes the position it hands back is inside the new
`[0, size]`, for offsets and sizes in the `int` range. -/
theorem data_write_keeps_cursor_inv (a : Arch) (e : ecp5) (g : Globals)
    (ubuf : List UInt8) (offp : Int) (env : WriteEnv) (r : WriteResult) (cursor : Int)
    (h : ecp5_sspi_data_write a e g ubuf offp env = some r)
    (h0 : 0 ≤ offp) (h1 : offp + ubuf.length ≤ 2147483647) (hsz : IsInt e.data_size)
    (hinv : cursor_inv cursor e.data_size) :
    cursor_inv cursor r.dev.data_size
      ∧ (0 ≤ r.ret → cursor_inv r.offp r.dev.data_size) := by
  obtain ⟨_, i2, i3, i4, i5, i6⟩ := write_ints a offp ubuf.length e.data_size h0 h1 hsz
  unfold cursor_inv at *
  unfold ecp5_sspi_data_write at h
  simp only [i2, i4, i5, i6] at h
  split at h
  · simp only [Option.some.injEq] at h; subst h
    simp only [EFAULT]; exact ⟨hinv, fun hc => absurd hc (by decide)⟩
  · split at h
    · simp only [Option.some.injEq] at h; subst h
      simp only [EBUSY]; exact ⟨hinv, fun hc => absurd hc (by decide)⟩
    · split at h
      · exact absurd h (by simp)
      · split at h
        · simp only [Option.some.injEq] at h; subst h
          simp only [EFAULT]; exact ⟨hinv, fun hc => absurd hc (by decide)⟩
        · simp only [Option.some.injEq] at h; subst h
          simp only []
          omega

/-- C16, at the failing input: a session on the ten-byte algo buffer has its cursor at
10, `programming_lock` is held, and three bytes are written at the explicit offset 0
(`pwrite`: the handler gets its own copy of the offset, the session's `f_pos` stays 10).
The handler returns `-EBUSY` and leaves `algo_size` at 3, so the cursor 10 is no longer
inside `[0, size]`; the same call on the data buffer keeps size 10. -/
theorem algo_write_busy_breaks_cursor_inv :
    cursor_inv 10 dev10.algo_size
    ∧ (ecp5_sspi_algo_write .lp64 dev10 globals_busy [1, 2, 3] 0 env_ok).map
        (fun r => (r.ret, r.offp, r.dev.algo_size)) = some (-EBUSY, 0, 3)
    ∧ ¬ cursor_inv 10 3
    ∧ (ecp5_sspi_algo_write .ilp32 dev10 globals_busy [1, 2, 3] 0 env_ok).map
        (fun r => decide (cursor_inv 10 r.dev.algo_size)) = some false
    ∧ (ecp5_sspi_data_write .lp64 dev10 globals_busy [1, 2, 3] 0 env_ok).map
        (fun r => decide (cursor_inv 10 r.dev.data_size)) = some true :=
  ⟨by decide, by decide, by decide, by decide, by decide⟩

/-- On an ILP32 kernel `ecp5_sspi_data_write` never leaves a negative `data_size`,
whatever the offset, the length and the outcome. -/
theorem data_write_ilp32_size_nonneg (e : ecp5) (g : Globals) (ubuf : List UInt8)
    (offp : Int) (env : WriteEnv) (r : WriteResult)
    (h : ecp5_sspi_data_write .ilp32 e g ubuf offp env = some r)
    (hsz : IsInt e.data_size) (h0 : 0 ≤ e.data_size) : 0 ≤ r.dev.data_size := by
  unfold IsInt at hsz
  unfold ecp5_sspi_data_write at h
  simp only [] at h
  split at h
  · simp only [Option.some.injEq] at h; subst h; exact h0
  · split at h
    · simp only [Option.some.injEq] at h; subst h; exact h0
    · split at h
      · exact absurd h (by simp)
      · split at h
        · simp only [Option.some.injEq] at h; subst h; exact h0
        · simp only [Option.some.injEq] at h; subst h
          simp only [Arch.bits, toSigned]
          omega

/-- C17, at the failing input: one byte is written at offset 2^31 - 1 of the empty algo
buffer (size 0), so that `offp + len` does not fit an `int`.  On an LP64 kernel with
`krealloc` failing the handler returns `-EFAULT`, on an ILP32 kernel with
`programming_lock` held it returns `-EBUSY`; either way the early store has left
`algo_size` at `(int) 2^31 = -2^31`.  The same calls on the data buffer, which has no early
store, leave `data_size` at 0. -/
theorem algo_write_failure_makes_size_negative :
    (ecp5_probe 0).algo_size = 0
    ∧ (ecp5_sspi_algo_write .lp64 (ecp5_probe 0) Globals.init [7] 2147483647 env_nomem).map
        (fun r => (r.ret, r.dev.algo_size)) = some (-EFAULT, -2147483648)
    ∧ (ecp5_sspi_algo_write .ilp32 (ecp5_probe 0) globals_busy [7] 2147483647 env_ok).map
        (fun r => (r.ret, r.dev.algo_size)) = some (-EBUSY, -2147483648)
    ∧ (ecp5_sspi_data_write .lp64 (ecp5_probe 0) Globals.init [7] 2147483647 env_nomem).map
        (fun r => (r.ret, r.dev.data_size)) = some (-EFAULT, 0)
    ∧ (ecp5_sspi_data_write .ilp32 (ecp5_probe 0) globals_busy [7] 2147483647 env_ok).map
        (fun r => (r.ret, r.dev.data_size)) = some (-EBUSY, 0) :=
  ⟨by decide, by decide, by decide, by decide, by decide⟩

/-- Whatever `krealloc` returns, when it is not `NULL` it has the size asked for. -/
theorem krealloc_length (p : Option (List UInt8)) (n : Nat) (ok : Bool)
    (junk : Nat → UInt8) (m : List UInt8) (h : krealloc p n ok junk = some m) :
    m.length = n := by
  unfold krealloc at h
  split at h
  · simp only [Option.some.injEq] at h; subst h; simp [*]
  · split at h
    · simp only [Option.some.injEq] at h; subst h; simp
    · exact absurd h (by simp)

/-- Inside the allocation `copy_from_user` always comes back. -/
theorem copy_from_user_in_bounds (m : List UInt8) (off : Int) (ubuf : List UInt8)
    (k : Nat) (h0 : 0 ≤ off) (h1 : off + ubuf.length ≤ (m.length : Int)) :
    copy_from_user m off ubuf k ≠ none := by
  unfold copy_from_user
  split
  · simp
  · simp [h0, h1]

/-- In the `int` range a write on the algo buffer always returns, and on each of its
returns `algo_size` is not negative. -/
theorem algo_write_size_nonneg (a : Arch) (e : ecp5) (g : Globals) (ubuf : List UInt8)
    (offp : Int) (env : WriteEnv) (h0 : 0 ≤ offp)
    (h1 : offp + ubuf.length ≤ 2147483647) (hsz : IsInt e.algo_size) :
    ∃ r, ecp5_sspi_algo_write a e g ubuf offp env = some r ∧ 0 ≤ r.dev.algo_size := by
  obtain ⟨i1, i2, i3, i4, i5, i6⟩ := write_ints a offp ubuf.length e.algo_size h0 h1 hsz
  cases hw : ecp5_sspi_algo_write a e g ubuf offp env with
  | none =>
    exfalso
    unfold ecp5_sspi_algo_write at hw
    simp only [i1, i2, i3, i4, i5, i6] at hw
    split at hw
    · exact absurd hw (by simp)
    · rename_i mem hk
      have hl := krealloc_length _ _ _ _ _ hk
      split at hw
      · exact absurd hw (by simp)
      · split at hw
        · rename_i hc
          exact copy_from_user_in_bounds mem offp ubuf env.uncopied h0 (by omega) hc
        · split at hw <;> exact absurd hw (by simp)
  | some r =>
    refine ⟨r, rfl, ?_⟩
    unfold ecp5_sspi_algo_write at hw
    simp only [i1, i2, i3, i4, i5, i6] at hw
    split at hw
    · simp only [Option.some.injEq] at hw; subst hw; simp only []; omega
    · split at hw
      · simp only [Option.some.injEq] at hw; subst hw; simp only []; omega
      · split at hw
        · exact absurd hw (by simp)
        · split at hw <;>
            (simp only [Option.some.injEq] at hw; subst hw; simp only []; omega)

/-- In the `int` range a write on the data buffer always returns, and on each of its
returns `data_size` is not negative when it was not negative before. -/
theorem data_write_size_nonneg (a : Arch) (e : ecp5) (g : Globals) (ubuf : List UInt8)
    (offp : Int) (env : WriteEnv) (h0 : 0 ≤ offp)
    (h1 : offp + ubuf.length ≤ 2147483647) (hsz : IsInt e.data_size)
    (hd0 : 0 ≤ e.data_size) :
    ∃ r, ecp5_sspi_data_write a e g ubuf offp env = some r ∧ 0 ≤ r.dev.data_size := by
  obtain ⟨i1, i2, i3, i4, i5, i6⟩ := write_ints a offp ubuf.length e.data_size h0 h1 hsz
  cases hw : ecp5_sspi_data_write a e g ubuf offp env with
  | none =>
    exfalso
    unfold ecp5_sspi_data_write at hw
    simp only [i2, i3, i4, i5, i6] at hw
    split at hw
    · exact absurd hw (by simp)
    · rename_i mem hk
      have hl := krealloc_length _ _ _ _ _ hk
      split at hw
      · exact absurd hw (by simp)
      · split at hw
        · rename_i hc
          exact copy_from_user_in_bounds mem offp ubuf env.uncopied h0 (by omega) hc
        · split at hw <;> exact absurd hw (by simp)
  | some r =>
    refine ⟨r, rfl, ?_⟩
    unfold ecp5_sspi_data_write at hw
    simp only [i2, i3, i4, i5, i6] at hw
    split at hw
    · simp only [Option.some.injEq] at hw; subst hw; simp only []; omega
    · split at hw
      · simp only [Option.some.injEq] at hw; subst hw; simp only []; omega
      · split at hw
        · exact absurd hw (by simp)
        · split at hw <;>
            (simp only [Option.some.injEq] at hw; subst hw; simp only []; omega)

/-- Inside the `int` range the size stays non-negative: for both buffers, every offset
`0 ≤ offp` and every length with `offp + len ≤ INT_MAX`, every write returns, and whatever
its outcome (bytes accepted, `-EBUSY`, or `-EFAULT` from the allocator or from the copy)
a size that was not negative before the call is not negative after it (for the algo
buffer the size after the call is not negative whatever it was before). -/
theorem write_keeps_size_nonneg (a : Arch) (e : ecp5) (g : Globals) (ubuf : List UInt8)
    (offp : Int) (env : WriteEnv) (h0 : 0 ≤ offp)
    (h1 : offp + ubuf.length ≤ 2147483647)
    (hsa : IsInt e.algo_size) (hsd : IsInt e.data_size) (hd0 : 0 ≤ e.data_size) :
    (∃ r, ecp5_sspi_algo_write a e g ubuf offp env = some r ∧ 0 ≤ r.dev.algo_size)
    ∧ (∃ r, ecp5_sspi_data_write a e g ubuf offp env = some r ∧ 0 ≤ r.dev.data_size) :=
  ⟨algo_write_size_nonneg a e g ubuf offp env h0 h1 hsa,
   data_write_size_nonneg a e g ubuf offp env h0 h1 hsd hd0⟩

/-- The sizes stay non-negative at a concrete input: three bytes written at offset 0 of
the ten-byte buffers while `programming_lock` is held. -/
theorem write_keeps_size_nonneg_witness :
    (∃ r, ecp5_sspi_algo_write .lp64 dev10 globals_busy [1, 2, 3] 0 env_ok = some r
        ∧ 0 ≤ r.dev.algo_size)
    ∧ (∃ r, ecp5_sspi_data_write .lp64 dev10 globals_busy [1, 2, 3] 0 env_ok = some r
        ∧ 0 ≤ r.dev.data_size) :=
  write_keeps_size_nonneg .lp64 dev10 globals_busy [1, 2, 3] 0 env_ok (by decide)
    (by decide) (by decide) (by decide) (by decide)

/-! ## What the handlers other than `write` change (C19) -/

/-- C19 as stated fails in its account of `program_store`: a trigger that finds
`programming_lock` free also stores the device's SPI identity into the file-scope
pointer `current_programming_ecp5` and does not clear it, so after the call the
file-scope variables differ from before although the lock is free again. -/
theorem program_store_sets_current_device :
    (program_store .lp64 dev10 Globals.init 1 (engine_const 0 2)).globals
        = { programming_lock := false, current_programming_ecp5 := some dev10.spi }
    ∧ Globals.init = { programming_lock := false, current_programming_ecp5 := none }
    ∧ (program_store .lp64 dev10 Globals.init 1 (engine_const 0 2)).globals
        ≠ Globals.init :=
  ⟨by decide, by decide, by decide⟩

/-- C19, amended: for every state and input, `open`, `release` and `program_store` leave
both logical sizes and both storages as they were (`read` and `lseek` have no store to
the device record: they give back only a return value, the position and the bytes
delivered).  `open` and `release` change nothing but the session lock of their buffer;
`program_store` changes nothing in the device record but `programming_result`, returns
with `programming_lock` as it found it, and, when it found the lock free, leaves the
device's SPI identity in `current_programming_ecp5`; when it found the lock held it
changes nothing at all. -/
theorem only_write_changes_staged (a : Arch) (e : ecp5) (g : Globals) (count : Nat)
    (eng : Engine) :
    staged (ecp5_sspi_algo_open e).2 = staged e
    ∧ staged (ecp5_sspi_algo_release e).2 = staged e
    ∧ staged (ecp5_sspi_data_open e).2 = staged e
    ∧ staged (ecp5_sspi_data_release e).2 = staged e
    ∧ staged (program_store a e g count eng).dev = staged e
    ∧ (ecp5_sspi_algo_open e).2 = { e with algo_lock := (ecp5_sspi_algo_open e).2.algo_lock }
    ∧ (ecp5_sspi_algo_release e).2 = { e with algo_lock := false }
    ∧ (ecp5_sspi_data_open e).2 = { e with data_lock := (ecp5_sspi_data_open e).2.data_lock }
    ∧ (ecp5_sspi_data_release e).2 = { e with data_lock := false }
    ∧ (program_store a e g count eng).dev
        = { e with programming_result := (program_store a e g count eng).dev.programming_result }
    ∧ (program_store a e g count eng).globals.programming_lock = g.programming_lock
    ∧ (g.programming_lock = false →
        (program_store a e g count eng).globals
          = { programming_lock := false, current_programming_ecp5 := some e.spi })
    ∧ (g.programming_lock = true →
        (program_store a e g count eng).globals = g
        ∧ (program_store a e g count eng).dev = e) := by
  refine ⟨?_, ?_, ?_, ?_, ?_, ?_, ?_, ?_, ?_, ?_, ?_, ?_, ?_⟩
  · unfold ecp5_sspi_algo_open; split <;> simp [staged]
  · simp [ecp5_sspi_algo_release, staged]
  · unfold ecp5_sspi_data_open; split <;> simp [staged]
  · simp [ecp5_sspi_data_release, staged]
  · unfold program_store; split <;> simp [staged]
  · unfold ecp5_sspi_algo_open; split <;> simp
  · simp [ecp5_sspi_algo_release]
  · unfold ecp5_sspi_data_open; split <;> simp
  · simp [ecp5_sspi_data_release]
  · unfold program_store; split <;> simp
  · unfold program_store; split <;> simp_all
  · intro h; simp [program_store, h]
  · intro h; simp [program_store, h]

/-- Witness of C19: a trigger on the staged device with the lock free, and one with the
lock held. -/
theorem only_write_changes_staged_witness :
    (program_store .lp64 dev10 Globals.init 1 (engine_const 0 2)).globals
        = { programming_lock := false, current_programming_ecp5 := some dev10.spi }
    ∧ (program_store .lp64 dev10 globals_busy 1 (engine_const 0 2)).globals = globals_busy
    ∧ (program_store .lp64 dev10 globals_busy 1 (engine_const 0 2)).dev = dev10
    ∧ staged (program_store .lp64 dev10 Globals.init 1 (engine_const 0 2)).dev
        = staged dev10 :=
  ⟨(only_write_changes_staged .lp64 dev10 Globals.init 1
      (engine_const 0 2)).2.2.2.2.2.2.2.2.2.2.2.1 rfl,
   ((only_write_changes_staged .lp64 dev10 globals_busy 1
      (engine_const 0 2)).2.2.2.2.2.2.2.2.2.2.2.2 rfl).1,
   ((only_write_changes_staged .lp64 dev10 globals_busy 1
      (engine_const 0 2)).2.2.2.2.2.2.2.2.2.2.2.2 rfl).2,
   (only_write_changes_staged .lp64 dev10 Globals.init 1 (engine_const 0 2)).2.2.2.2.1⟩

/-! ## A read whose copy succeeds (C10) -/

/-- A `copy_to_user` that reports no byte left behind has read the `n` bytes at the
offset inside the storage (or was asked for none) and delivered them. -/
theorem copy_to_user_complete (mem : Option (List UInt8)) (off : Int) (n k : Nat)
    (out : List UInt8) (h : copy_to_user mem off n k = some (0, out)) :
    out = slice (mem.getD []) off.toNat n
      ∧ (n = 0 ∨ (0 ≤ off ∧ off + n ≤ ((mem.getD []).length : Int))) := by
  unfold copy_to_user at h
  simp only [] at h
  split at h
  · rename_i hk
    simp only [Option.some.injEq, Prod.mk.injEq] at h
    have hn : n = 0 := by omega
    subst hn
    exact ⟨by rw [← h.2]; simp [slice], Or.inl rfl⟩
  · split at h
    · rename_i hb
      simp only [Option.some.injEq, Prod.mk.injEq] at h
      rw [h.1] at hb
      rw [h.1] at h
      simp only [Nat.sub_zero] at h hb
      exact ⟨by rw [← h.2]; rfl, Or.inr hb⟩
    · exact absurd h (by simp)

/-- The read on the algo buffer at an offset inside `[0, size)`: when it returns and has
not failed in the copy, it has returned `n = min(len, size - offp)`, delivered the bytes
`[offp, offp + n)` of the storage and advanced `*offp` by `n`, for every length. -/
theorem algo_read_copied (a : Arch) (e : ecp5) (len : Nat) (offp : Int) (uncopied : Nat)
    (r : ReadResult) (h0 : 0 ≤ offp) (h1 : offp < e.algo_size) (hsz : IsInt e.algo_size)
    (hlen : (len : Int) < 2 ^ a.bits) (hfit : storage_fits a e.algo_mem)
    (h : ecp5_sspi_algo_read a e len offp uncopied = some r) (hret : r.ret ≠ -EFAULT) :
    r = ⟨(min len (e.algo_size - offp).toNat : Nat),
         offp + (min len (e.algo_size - offp).toNat : Nat),
         slice (e.algo_mem.getD []) offp.toNat (min len (e.algo_size - offp).toNat)⟩ := by
  by_cases hw : no_wrap a offp len
  · have hl := read_len1 a e.algo_size offp len hsz (by omega) (le_of_lt h1) hlen hw
    obtain ⟨r1, r2⟩ := read_ints a offp (min len (e.algo_size - offp).toNat) h0
      (by unfold IsInt at hsz; omega)
    unfold ecp5_sspi_algo_read at h
    rw [if_neg (not_lt.mpr (le_of_lt h1))] at h
    simp only [hl] at h
    cases hc : copy_to_user e.algo_mem offp (min len (e.algo_size - offp).toNat) uncopied with
    | none => rw [hc] at h; exact absurd h (by simp)
    | some p =>
      obtain ⟨bad, out⟩ := p
      rw [hc] at h
      simp only [] at h
      by_cases hb : bad = 0
      · subst hb
        simp only [ne_eq, not_true_eq_false, if_false, Option.some.injEq] at h
        rw [← h, r1, r2, (copy_to_user_complete _ _ _ _ _ hc).1]
      · simp only [ne_eq, hb, not_false_eq_true, if_true, Option.some.injEq] at h
        rw [← h] at hret
        exact absurd rfl hret
  · exfalso
    unfold IsInt at hsz
    unfold storage_fits at hfit
    cases a with
    | ilp32 => exact hw trivial
    | lp64 =>
      simp only [no_wrap, not_and, not_lt] at hw
      have hw2 := hw h0
      simp only [Arch.bits] at hlen hfit
      have hs : sum_gt_size .lp64 offp len e.algo_size = false := by
        simp only [sum_gt_size, off_plus_len, toUnsigned, decide_eq_false_iff_not]
        omega
      unfold ecp5_sspi_algo_read at h
      rw [if_neg (not_lt.mpr (le_of_lt h1))] at h
      simp only [hs, Bool.false_eq_true, if_false] at h
      cases hc : copy_to_user e.algo_mem offp len uncopied with
      | none => rw [hc] at h; simp at h
      | some p =>
        obtain ⟨bad, out⟩ := p
        rw [hc] at h
        simp only [] at h
        by_cases hb : bad = 0
        · subst hb
          rcases (copy_to_user_complete _ _ _ _ _ hc).2 with hz | ⟨_, hbd⟩
          · omega
          · omega
        · simp only [ne_eq, hb, not_false_eq_true, if_true, Bool.false_eq_true, if_false,
            Option.some.injEq] at h
          rw [← h] at hret
          exact absurd rfl hret

/-- The read on the data buffer at an offset inside `[0, size)`: when it returns and has
not failed in the copy, it has returned `n = min(len, size - offp)`, delivered the bytes
`[offp, offp + n)` of the storage and advanced `*offp` by `n`, for every length. -/
theorem data_read_copied (a : Arch) (e : ecp5) (len : Nat) (offp : Int) (uncopied : Nat)
    (r : ReadResult) (h0 : 0 ≤ offp) (h1 : offp < e.data_size) (hsz : IsInt e.data_size)
    (hlen : (len : Int) < 2 ^ a.bits) (hfit : storage_fits a e.data_mem)
    (h : ecp5_sspi_data_read a e len offp uncopied = some r) (hret : r.ret ≠ -EFAULT) :
    r = ⟨(min len (e.data_size - offp).toNat : Nat),
         offp + (min len (e.data_size - offp).toNat : Nat),
         slice (e.data_mem.getD []) offp.toNat (min len (e.data_size - offp).toNat)⟩ :=
  algo_read_copied a e.swap len offp uncopied r h0 h1 hsz hlen hfit h hret

/-- Storage that holds at least one byte is not `NULL`. -/
theorem storage_some_of_length (mem : Option (List UInt8)) (size : Int) (h0 : 0 < size)
    (h : size ≤ ((mem.getD []).length : Int)) : ∃ m, mem = some m := by
  cases mem with
  | none => simp at h; omega
  | some m => exact ⟨m, rfl⟩

/-- C10: for both buffers, every offset with `0 ≤ offp < size` and every length (also
those whose sum with the offset exceeds the machine word): a read that returns without
having failed in the copy has returned exactly `n = min(len, size - offp)`, has delivered
exactly the bytes `[offp, offp + n)` of the buffer and has advanced `*offp` by `n`, with
`offp + n ≤ size`.  Such a read exists: when the storage holds the `size` bytes, the sum
does not wrap and user space takes every byte, the read returns and does not fail. -/
theorem read_copy_ok_clamped (a : Arch) (e : ecp5) (len : Nat) (offp : Int)
    (uncopied : Nat) (h0 : 0 ≤ offp) (hlen : (len : Int) < 2 ^ a.bits) :
    (IsInt e.algo_size → offp < e.algo_size → storage_fits a e.algo_mem →
        (∀ r, ecp5_sspi_algo_read a e len offp uncopied = some r → r.ret ≠ -EFAULT →
          ∃ n : Nat, (n : Int) = min (len : Int) (e.algo_size - offp)
            ∧ offp + n ≤ e.algo_size
            ∧ r = ⟨n, offp + n, slice (e.algo_mem.getD []) offp.toNat n⟩)
        ∧ (no_wrap a offp len → e.algo_size ≤ ((e.algo_mem.getD []).length : Int) →
            ∃ r, ecp5_sspi_algo_read a e len offp 0 = some r ∧ r.ret ≠ -EFAULT))
    ∧ (IsInt e.data_size → offp < e.data_size → storage_fits a e.data_mem →
        (∀ r, ecp5_sspi_data_read a e len offp uncopied = some r → r.ret ≠ -EFAULT →
          ∃ n : Nat, (n : Int) = min (len : Int) (e.data_size - offp)
            ∧ offp + n ≤ e.data_size
            ∧ r = ⟨n, offp + n, slice (e.data_mem.getD []) offp.toNat n⟩)
        ∧ (no_wrap a offp len → e.data_size ≤ ((e.data_mem.getD []).length : Int) →
            ∃ r, ecp5_sspi_data_read a e len offp 0 = some r ∧ r.ret ≠ -EFAULT)) := by
  constructor
  · intro hsz h1 hfit
    refine ⟨fun r h hret => ⟨min len (e.algo_size - offp).toNat, by omega, by omega,
      algo_read_copied a e len offp uncopied r h0 h1 hsz hlen hfit h hret⟩, ?_⟩
    intro hw hcap
    obtain ⟨m, hm⟩ := storage_some_of_length e.algo_mem e.algo_size (by omega) hcap
    rw [hm] at hcap
    refine ⟨_, algo_read_ok a e m len offp hm hcap hsz h0 (le_of_lt h1) hlen hw, ?_⟩
    simp only [EFAULT]
    omega
  · intro hsz h1 hfit
    refine ⟨fun r h hret => ⟨min len (e.data_size - offp).toNat, by omega, by omega,
      data_read_copied a e len offp uncopied r h0 h1 hsz hlen hfit h hret⟩, ?_⟩
    intro hw hcap
    obtain ⟨m, hm⟩ := storage_some_of_length e.data_mem e.data_size (by omega) hcap
    rw [hm] at hcap
    refine ⟨_, data_read_ok a e m len offp hm hcap hsz h0 (le_of_lt h1) hlen hw, ?_⟩
    simp only [EFAULT]
    omega

/-- Witness of C10: a read of 7 bytes at offset 4 of the ten-byte buffers returns 6,
delivers the bytes 4..9 and moves `*offp` to 10. -/
theorem read_copy_ok_clamped_witness :
    (∃ n : Nat, (n : Int) = min ((7 : Nat) : Int) (dev10.algo_size - 4)
      ∧ (4 : Int) + n ≤ dev10.algo_size
      ∧ (⟨6, 10, [4, 5, 6, 7, 8, 9]⟩ : ReadResult)
          = ⟨n, 4 + n, slice (dev10.algo_mem.getD []) (4 : Int).toNat n⟩)
    ∧ (∃ r, ecp5_sspi_data_read .lp64 dev10 7 4 0 = some r ∧ r.ret ≠ -EFAULT) :=
  ⟨((read_copy_ok_clamped .lp64 dev10 7 4 0 (by decide) (by decide)).1 (by decide)
      (by decide) (by decide)).1 ⟨6, 10, [4, 5, 6, 7, 8, 9]⟩ (by decide) (by decide),
   ((read_copy_ok_clamped .lp64 dev10 7 4 0 (by decide) (by decide)).2 (by decide)
      (by decide) (by decide)).2 (by decide) (by decide)⟩

/-- Reads in which no copy succeeds.  On an LP64 kernel a read of 2^64 - 3 bytes at
offset 5 of a ten-byte buffer is not clamped (the sum wraps to 2): it returns `-EFAULT`
with `*offp` unchanged when user space takes nothing, and reads past the storage when
user space would take everything.  A data buffer left with size 10 and no storage by a
write that failed in `krealloc` has nothing to read from: the read of 5 bytes at offset
0 returns `-EFAULT` when user space takes nothing and has no result otherwise. -/
theorem read_without_successful_copy :
    ecp5_sspi_algo_read .lp64 dev10 18446744073709551613 5 18446744073709551613
        = some ⟨-EFAULT, 5, []⟩
    ∧ ecp5_sspi_algo_read .lp64 dev10 18446744073709551613 5 0 = none
    ∧ (ecp5_sspi_data_write .lp64 dev10 Globals.init [1, 2, 3] 10 env_nomem).map
        (fun r => (r.ret, r.dev.data_size, r.dev.data_mem)) = some (-EFAULT, 10, none)
    ∧ ecp5_sspi_data_read .lp64 dev_null_storage 5 0 5 = some ⟨-EFAULT, 0, []⟩
    ∧ ecp5_sspi_data_read .lp64 dev_null_storage 5 0 0 = none :=
  ⟨by decide, by decide, by decide, by decide, by decide⟩

/-! ## Independence of the two buffers (C13) -/

/-- The writes of the C13 witness, evaluated: the refused algo write leaves the data
buffer, and the accepted data write leaves the algo buffer, as they were. -/
theorem buffers_independent_example :
    (ecp5_sspi_algo_write .lp64 dev10 globals_busy [1, 2, 3] 0 env_ok).map
        (fun r => (r.ret, r.dev.data_size, r.dev.data_mem, r.dev.data_lock,
          r.dev.programming_result))
      = some (-EBUSY, 10, some [0, 1, 2, 3, 4, 5, 6, 7, 8, 9], false, 0)
    ∧ (ecp5_sspi_data_write .lp64 dev10 Globals.init [1, 2, 3] 0 env_ok).map
        (fun r => (r.ret, r.dev.algo_size, r.dev.algo_mem, r.dev.algo_lock,
          r.dev.programming_result))
      = some (3, 10, some [0, 1, 2, 3, 4, 5, 6, 7, 8, 9], false, 0) :=
  ⟨by decide, by decide⟩

end ECP5
